import Mathlib

/-!
Verification of the tinode chat server core against its natural-language
specification.  Each Go function named in a claim is translated into a Lean
definition over explicit state; machine integers are modelled as `Nat`/`Int`
with explicit reductions modulo powers of two where Go truncates.
External effects (storage writes, routed messages, session output queues)
are recorded as explicit lists of events.
-/

namespace Tinode
/-! ## Access mode (store/types, old vocabulary)

Bit-packed permission set, translated from `AccessMode` in the
`store/types` package (concatenated into `store/adapter/adapter.go`). -/
abbrev AccessMode := Nat
end Tinode

namespace Tinode
def ModeSub : AccessMode := 1
end Tinode

namespace Tinode
def ModePub : AccessMode := 2
end Tinode

namespace Tinode
def ModePres : AccessMode := 4
end Tinode

namespace Tinode
def ModeShare : AccessMode := 8
end Tinode

namespace Tinode
def ModeDelete : AccessMode := 16
end Tinode

namespace Tinode
def ModeOwner : AccessMode := 32
end Tinode

namespace Tinode
def ModeBanned : AccessMode := 64
end Tinode

namespace Tinode
def ModeNone : AccessMode := 0
end Tinode

namespace Tinode
/-- `ModeFull`: owner's subscription to a generic topic. -/
def ModeFull : AccessMode :=
  ModeSub ||| ModePub ||| ModePres ||| ModeShare ||| ModeDelete ||| ModeOwner
end Tinode

namespace Tinode
/-- `ModePubSub`: read and write. -/
def ModePubSub : AccessMode := ModeSub ||| ModePub
end Tinode

namespace Tinode
/-- `ModePublic`: normal user's access to a topic. -/
def ModePublic : AccessMode := ModeSub ||| ModePub ||| ModePres
end Tinode

namespace Tinode
/-- `ModeP2P`: default P2P access mode. -/
def ModeP2P : AccessMode := ModeSub ||| ModePub ||| ModePres ||| ModeDelete
end Tinode

namespace Tinode
/-- `AccessMode.Check`: grant mode allows all that was requested in want. -/
def check (grant want : AccessMode) : Bool := grant &&& want == want
end Tinode

namespace Tinode
/-- `AccessMode.IsBanned`. -/
def isBanned (a : AccessMode) : Bool := a &&& ModeBanned != 0
end Tinode

namespace Tinode
/-- `AccessMode.IsOwner`. -/
def isOwner (a : AccessMode) : Bool := a &&& ModeOwner != 0
end Tinode

namespace Tinode
/-- `AccessMode.IsManager`: owner or sharer. -/
def isManager (a : AccessMode) : Bool := isOwner a || (a &&& ModeShare != 0)
end Tinode

namespace Tinode
/-- `AccessMode.CanPub`. -/
def canPub (a : AccessMode) : Bool := a &&& ModePub != 0
end Tinode

namespace Tinode
/-- One step of `AccessMode.UnmarshalText`'s character loop.  The Go switch
returns an error on an unknown character; `N` clears all accumulated bits. -/
def unmarshalStep (m0 : AccessMode) (c : Char) : Option AccessMode :=
  if c = 'R' ∨ c = 'r' then some (m0 ||| ModeSub)
  else if c = 'W' ∨ c = 'w' then some (m0 ||| ModePub)
  else if c = 'S' ∨ c = 's' then some (m0 ||| ModeShare)
  else if c = 'D' ∨ c = 'd' then some (m0 ||| ModeDelete)
  else if c = 'P' ∨ c = 'p' then some (m0 ||| ModePres)
  else if c = 'O' ∨ c = 'o' then some (m0 ||| ModeOwner)
  else if c = 'X' ∨ c = 'x' then some (m0 ||| ModeBanned)
  else if c = 'N' ∨ c = 'n' then some 0
  else none
end Tinode

namespace Tinode
/-- `AccessMode.UnmarshalText`: parse a mode string; banned absorbs all
other bits.  Returns `none` exactly when Go returns an error, in which case
the Go receiver keeps its previous value. -/
def unmarshalText (s : String) : Option AccessMode :=
  (s.toList.foldlM unmarshalStep 0).map
    (fun m0 => if m0 &&& ModeBanned != 0 then ModeBanned else m0)
end Tinode

namespace Tinode
/-! ## Server control messages (datamodel.go constructors)

Only the fields the claims inspect are kept: the request id, the topic the
ctrl is addressed to, the HTTP-style code, the text, and the optional
`seq` parameter attached by the data-message acknowledgement. -/
structure Ctrl where
  id : String
  topic : String
  code : Nat
  text : String
  seqParam : Option Int := none
  deriving Repr, DecidableEq
end Tinode

namespace Tinode
def NoErr (id topic : String) : Ctrl := ⟨id, topic, 200, "ok", none⟩
end Tinode

namespace Tinode
def NoErrAccepted (id topic : String) : Ctrl := ⟨id, topic, 202, "accepted", none⟩
end Tinode

namespace Tinode
def NoErrEvicted (id topic : String) : Ctrl := ⟨id, topic, 205, "evicted", none⟩
end Tinode

namespace Tinode
def InfoAlreadySubscribed (id topic : String) : Ctrl :=
  ⟨id, topic, 304, "already subscribed", none⟩
end Tinode

namespace Tinode
def InfoNotJoined (id topic : String) : Ctrl := ⟨id, topic, 304, "not joined", none⟩
end Tinode

namespace Tinode
def InfoNoAction (id topic : String) : Ctrl := ⟨id, topic, 304, "no action", none⟩
end Tinode

namespace Tinode
def ErrMalformed (id topic : String) : Ctrl := ⟨id, topic, 400, "malformed", none⟩
end Tinode

namespace Tinode
def ErrAuthRequired (id topic : String) : Ctrl :=
  ⟨id, topic, 401, "authentication required", none⟩
end Tinode

namespace Tinode
def ErrPermissionDenied (id topic : String) : Ctrl :=
  ⟨id, topic, 403, "permission denied", none⟩
end Tinode

namespace Tinode
def ErrOperationNotAllowed (id topic : String) : Ctrl :=
  ⟨id, topic, 405, "operation or method not allowed", none⟩
end Tinode

namespace Tinode
def ErrCommandOutOfSequence (id topic : String) : Ctrl :=
  ⟨id, topic, 409, "command out of sequence", none⟩
end Tinode

namespace Tinode
def ErrAttachFirst (id topic : String) : Ctrl :=
  ⟨id, topic, 409, "must attach first", none⟩
end Tinode

namespace Tinode
def ErrUnknown (id topic : String) : Ctrl := ⟨id, topic, 500, "internal error", none⟩
end Tinode

namespace Tinode.Token
/-- Little-endian encoding of `n` into `w` bytes (Go `binary.Write` of a
fixed-width unsigned integer truncates to the width). -/
def leBytes : Nat → Nat → List Nat
  | 0, _ => []
  | w + 1, n => n % 256 :: leBytes w (n / 256)
end Tinode.Token

namespace Tinode.Token
/-- Little-endian decoding of a byte list (`binary.LittleEndian.UintNN`). -/
def leDecode : List Nat → Nat
  | [] => 0
  | b :: bs => b + 256 * leDecode bs
end Tinode.Token

namespace Tinode.Token
/-- Authentication levels.  Modelled from the spec: the `auth` package is
not among the sources; the spec names the levels NONE, ANON, AUTH, ROOT in
increasing order, so they are mapped to 0,1,2,3. -/
def LevelNone : Nat := 0
end Tinode.Token

namespace Tinode.Token
/-- Modelled from the spec: highest authentication level (ROOT). -/
def LevelRoot : Nat := 3
end Tinode.Token

namespace Tinode.Token
/-- Error codes of the `auth` package used by the token authenticator. -/
inductive AuthErrCode where
  | NoErr
  | ErrMalformed
  | ErrFailed
  | ErrExpired
  deriving Repr, DecidableEq
end Tinode.Token

namespace Tinode.Token
/-- State of the token authenticator (`TokenAuth` struct): the keyed MAC,
the default token lifetime in seconds, and the serial number. -/
structure TokenAuth where
  mac : List Nat → List Nat
  tokenTimeout : Nat
  tokenSerialNumber : Nat
end Tinode.Token

namespace Tinode.Token
/-- `TokenAuth.GenSecret`.  Time is modelled in whole UNIX seconds (the
token only stores seconds); `now` is the current time, `lifetime` the
requested lifetime in seconds.  Layout:
`[0..8) uid | [8..12) expires | [12..14) authLvl | [14..16) serial |
[16..) hmac of bytes [0..16)`. -/
def GenSecret (ta : TokenAuth) (uid authLvl : Nat) (lifetime : Int) (now : Nat) :
    Except AuthErrCode (List Nat × Nat) :=
  if lifetime < 0 then .error .ErrExpired
  else
    let lt : Nat := if lifetime = 0 then ta.tokenTimeout else lifetime.toNat
    let expires := now + lt
    let buf := leBytes 8 uid ++ leBytes 4 expires ++ leBytes 2 authLvl ++
      leBytes 2 ta.tokenSerialNumber
    .ok (buf ++ ta.mac buf, expires)
end Tinode.Token

namespace Tinode.Token
/-- `TokenAuth.Authenticate`: validity checks in source order.  On success
returns `(uid, authLvl, expires)`.  `authLvl < 0` cannot occur on `Nat`;
the Go check `authLvl < 0 || authLvl > auth.LevelRoot` keeps its upper
half. -/
def Authenticate (ta : TokenAuth) (token : List Nat) (now : Nat) :
    Except AuthErrCode (Nat × Nat × Nat) :=
  if token.length < 48 then .error .ErrMalformed
  else
    let uid := leDecode (token.take 8)
    let authLvl := leDecode ((token.drop 12).take 2)
    if authLvl > LevelRoot then .error .ErrMalformed
    else if leDecode ((token.drop 14).take 2) ≠ ta.tokenSerialNumber then
      .error .ErrMalformed
    else if token.drop 16 ≠ ta.mac (token.take 16) then .error .ErrFailed
    else
      let expires := leDecode ((token.drop 8).take 4)
      if expires < now + 1 then .error .ErrExpired
      else .ok (uid, authLvl, expires)
end Tinode.Token

namespace Tinode.Token
/-- The token bytes produced by `GenSecret` for a positive lifetime. -/
def genToken (ta : TokenAuth) (uid authLvl : Nat) (expires : Nat) : List Nat :=
  let buf := leBytes 8 uid ++ leBytes 4 expires ++ leBytes 2 authLvl ++
    leBytes 2 ta.tokenSerialNumber
  buf ++ ta.mac buf
end Tinode.Token

namespace Tinode.Token
/-- A concrete authenticator instance used to evaluate the token codec:
a stand-in 32-byte MAC, one-hour default lifetime, serial number 21. -/
def ta0 : TokenAuth := ⟨fun _ => List.replicate 32 7, 3600, 21⟩
end Tinode.Token

namespace Tinode
/-- `strings.HasPrefix`, implemented over the character lists so that it
evaluates inside the kernel. -/
def hasPre : List Char → List Char → Bool
  | [], _ => true
  | _ :: _, [] => false
  | c :: cs, d :: ds => c == d && hasPre cs ds
end Tinode

namespace Tinode
/-- `strings.HasPrefix` on strings. -/
def strHasPre (pre s : String) : Bool := hasPre pre.toList s.toList
end Tinode

namespace Tinode
/-- base64url alphabet: value 0..63 to character. -/
def b64Char (n : Nat) : Char :=
  if n < 26 then Char.ofNat (65 + n)
  else if n < 52 then Char.ofNat (97 + (n - 26))
  else if n < 62 then Char.ofNat (48 + (n - 52))
  else if n = 62 then '-'
  else '_'
end Tinode

namespace Tinode
/-- base64url alphabet: character to value; `none` for a character outside
the alphabet (Go's `base64.URLEncoding.Decode` reports an error there,
which `Uid.UnmarshalText` turns into a failed parse). -/
def b64Value (c : Char) : Option Nat :=
  if 'A' ≤ c ∧ c ≤ 'Z' then some (c.toNat - 65)
  else if 'a' ≤ c ∧ c ≤ 'z' then some (c.toNat - 97 + 26)
  else if '0' ≤ c ∧ c ≤ '9' then some (c.toNat - 48 + 52)
  else if c = '-' then some 62
  else if c = '_' then some 63
  else none
end Tinode

namespace Tinode
/-- `Uid.UnmarshalText`: an 11-character base64url string padded to 12 and
decoded; fewer than 8 decoded bytes (wrong length or a character outside
the alphabet) is a failed parse. -/
def uidUnmarshalText (s : String) : Option Nat :=
  if s.length ≠ 11 then none
  else
    match s.toList.mapM b64Value with
    | none => none
    | some vs =>
      match vs with
      | [v0, v1, v2, v3, v4, v5, v6, v7, v8, v9, v10] =>
        some (Token.leDecode
          [v0 * 4 + v1 / 16, v1 % 16 * 16 + v2 / 4, v2 % 4 * 64 + v3,
           v4 * 4 + v5 / 16, v5 % 16 * 16 + v6 / 4, v6 % 4 * 64 + v7,
           v8 * 4 + v9 / 16, v9 % 16 * 16 + v10 / 4])
      | _ => none
end Tinode

namespace Tinode
/-- Encode one full 3-byte quantum into 4 base64url characters. -/
def encB3 (b0 b1 b2 : Nat) : List Char :=
  [b64Char (b0 / 4), b64Char (b0 % 4 * 16 + b1 / 16),
   b64Char (b1 % 16 * 4 + b2 / 64), b64Char (b2 % 64)]
end Tinode

namespace Tinode
/-- `Uid.MarshalText` for a nonzero uid: base64url of the 8 LE bytes,
truncated to 11 characters (the 12th would be padding). -/
def uidChars (uid : Nat) : List Char :=
  match Token.leBytes 8 uid with
  | [b0, b1, b2, b3, b4, b5, b6, b7] =>
    encB3 b0 b1 b2 ++ encB3 b3 b4 b5 ++
      [b64Char (b6 / 4), b64Char (b6 % 4 * 16 + b7 / 16), b64Char (b7 % 16 * 4)]
  | _ => []
end Tinode

namespace Tinode
/-- `Uid.String`/`Uid.MarshalText`: empty for the zero uid. -/
def uidString (uid : Nat) : String :=
  if uid = 0 then "" else String.mk (uidChars uid)
end Tinode

namespace Tinode
/-- `Uid.PrefixId`. -/
def PrefixId (uid : Nat) (pre : String) : String :=
  if uid = 0 then "" else pre ++ uidString uid
end Tinode

namespace Tinode
/-- `Uid.UserId`: `usr` + base64url id. -/
def UserId (uid : Nat) : String := PrefixId uid "usr"
end Tinode

namespace Tinode
/-- `Uid.FndName`: `fnd` + base64url id. -/
def FndName (uid : Nat) : String := PrefixId uid "fnd"
end Tinode

namespace Tinode
/-- `ParseUid`: parse errors leave the uid zero. -/
def ParseUid (s : String) : Nat := (uidUnmarshalText s).getD 0
end Tinode

namespace Tinode
/-- `ParseUserId`: parse a user ID of form `usrXXX`; anything else is the
zero uid. -/
def ParseUserId (s : String) : Nat :=
  if strHasPre "usr" s then ParseUid (s.drop 3) else 0
end Tinode

namespace Tinode
/-- base64url of 16 bytes, truncated to 22 characters. -/
def encP2PChars (bs : List Nat) : List Char :=
  match bs with
  | [b0, b1, b2, b3, b4, b5, b6, b7, b8, b9, b10, b11, b12, b13, b14, b15] =>
    encB3 b0 b1 b2 ++ encB3 b3 b4 b5 ++ encB3 b6 b7 b8 ++ encB3 b9 b10 b11 ++
      encB3 b12 b13 b14 ++ [b64Char (b15 / 4), b64Char (b15 % 4 * 16)]
  | _ => []
end Tinode

namespace Tinode
/-- `Uid.P2PName`: concatenation of the two 8-byte LE ids in ascending
order, base64url'd, prefixed `p2p`; empty when either id is zero or both
are equal. -/
def P2PName (uid u2 : Nat) : String :=
  if uid ≠ 0 ∧ u2 ≠ 0 then
    if uid < u2 then
      "p2p" ++ String.mk (encP2PChars (Token.leBytes 8 uid ++ Token.leBytes 8 u2))
    else if u2 < uid then
      "p2p" ++ String.mk (encP2PChars (Token.leBytes 8 u2 ++ Token.leBytes 8 uid))
    else ""
  else ""
end Tinode

namespace Tinode
/-- The session fields the handlers under study read: the authenticated
user (0 when not logged in), the session id, the negotiated protocol
version (0 until `hi`), and the set of attached topics (the keys of
`s.subs`; the channel values are modelled by the routed events). -/
structure SessionSt where
  uid : Nat
  sid : String
  ver : Nat
  subs : List String
  deriving Repr, DecidableEq
end Tinode

namespace Tinode
/-- `Session.validateTopicName`: expand a session-specific topic name to
the routable name or produce the error ctrl to send back.  Total and
deterministic by construction. -/
def validateTopicName (s : SessionSt) (msgId topic : String) : Except Ctrl String :=
  if topic = "" then .error (ErrMalformed msgId "")
  else if ¬ strHasPre "grp" topic ∧ s.uid = 0 then
    .error (ErrAuthRequired msgId topic)
  else if topic = "me" then .ok (UserId s.uid)
  else if topic = "fnd" then .ok (FndName s.uid)
  else if strHasPre "usr" topic then
    let uid2 := ParseUserId topic
    if uid2 = 0 then .error (ErrMalformed msgId topic)
    else if uid2 = s.uid then .error (ErrPermissionDenied msgId topic)
    else .ok (P2PName s.uid uid2)
  else .ok topic
end Tinode

namespace Tinode
/-- Where `Session.leave` sends its single outcome. -/
inductive LeaveOut where
  | toSession (c : Ctrl)
  | toTopic (expanded : String) (unsub : Bool) (topic : String) (reqId : String)
  | toCluster (expanded : String)
  deriving Repr, DecidableEq
end Tinode

namespace Tinode
/-- `Session.leave`: dispatch a client `{leave}`.  `isRemote` models
`globals.cluster.isRemoteTopic` (constantly false on a single node). -/
def sessionLeave (s : SessionSt) (isRemote : String → Bool)
    (id topic : String) (unsub : Bool) : SessionSt × LeaveOut :=
  if s.ver = 0 then (s, .toSession (ErrCommandOutOfSequence id topic))
  else
    match validateTopicName s id topic with
    | .error e => (s, .toSession e)
    | .ok expanded =>
      if s.subs.contains expanded then
        if (topic = "me" ∨ topic = "fnd") ∧ unsub then
          (s, .toSession (ErrPermissionDenied id topic))
        else
          ({ s with subs := s.subs.filter (· ≠ expanded) },
            .toTopic expanded unsub topic id)
      else if isRemote expanded then (s, .toCluster expanded)
      else if ¬ unsub then (s, .toSession (InfoNotJoined id topic))
      else (s, .toSession (ErrAttachFirst id topic))
end Tinode

namespace Tinode
/-- Where `Session.note` sends its single outcome; `toTopic` carries the
`{info}` forwarded into the topic broadcast mailbox together with the
session id to skip on fan-out. -/
inductive NoteOut where
  | silent
  | toTopic (expanded what : String) (seqId : Int) (fromUser skipSid : String)
  | toCluster (expanded : String)
  deriving Repr, DecidableEq
end Tinode

namespace Tinode
/-- `Session.note`: dispatch a client `{note}`.  The first component of
the result collects every ctrl queued back to the originating session
(the source contains no `queueOut` on any path of this handler). -/
def sessionNote (s : SessionSt) (isRemote : String → Bool)
    (topic what : String) (seqId : Int) : List Ctrl × NoteOut :=
  if s.ver = 0 then ([], .silent)
  else
    match validateTopicName s "" topic with
    | .error _ => ([], .silent)
    | .ok expanded =>
      if (if what = "kp" then seqId ≠ 0
          else if what = "read" ∨ what = "recv" then seqId ≤ 0
          else True) then ([], .silent)
      else if s.subs.contains expanded then
        ([], .toTopic expanded what seqId (UserId s.uid) s.sid)
      else if isRemote expanded then ([], .toCluster expanded)
      else ([], .silent)
end Tinode

namespace Tinode
/-! ## Topic actor state (server/topic.go)

The per-topic state machine.  Opaque JSON payloads (`interface{}` in Go)
are modelled as `Option String`; they are only moved around, never
inspected, except for the delete sentinel which none of the claims under
study touches.  Storage writes, routed presence/invite events and the
ctrl messages queued to sessions are recorded as explicit lists; a write
is recorded only when it succeeds, and the `dbOk`/`saveOk`/`storeOk`
flags inject the storage-failure paths of the source. -/
abbrev Uid := Nat
end Tinode

namespace Tinode
abbrev Payload := Option String
end Tinode

namespace Tinode
inductive TopicCat where
  | me | fnd | p2p | grp
  deriving Repr, DecidableEq
end Tinode

namespace Tinode
/-- `perUserData`: the topic's cache of per-subscriber data (timestamps
are not consulted by any claim and are omitted). -/
structure PerUserData where
  online : Int := 0
  recvId : Int := 0
  readId : Int := 0
  clearId : Int := 0
  priv : Payload := none
  modeWant : AccessMode := 0
  modeGiven : AccessMode := 0
  public : Payload := none
  deriving Repr, DecidableEq
end Tinode

namespace Tinode
/-- An attached session as the topic sees it. -/
structure SessionRef where
  sid : String
  uid : Uid
  deviceId : String := ""
  deriving Repr, DecidableEq
end Tinode

namespace Tinode
/-- The Go zero value `perUserData{}` returned by a map read on a missing
key. -/
def zeroPud : PerUserData := {}
end Tinode

namespace Tinode
def lookupPud : List (Uid × PerUserData) → Uid → Option PerUserData
  | [], _ => none
  | e :: rest, u => if e.1 = u then some e.2 else lookupPud rest u
end Tinode

namespace Tinode
/-- `t.perUser[u]` (Go map read: zero value when absent). -/
def getPud (l : List (Uid × PerUserData)) (u : Uid) : PerUserData :=
  (lookupPud l u).getD zeroPud
end Tinode

namespace Tinode
def hasPud (l : List (Uid × PerUserData)) (u : Uid) : Bool :=
  (lookupPud l u).isSome
end Tinode

namespace Tinode
/-- `t.perUser[u] = p` (Go map write).  A Go map is unordered with unique
keys; it is modelled as an association list updated at the first
occurrence of the key (all insertions go through this function, so keys
stay unique). -/
def setPud : List (Uid × PerUserData) → Uid → PerUserData →
    List (Uid × PerUserData)
  | [], u, p => [(u, p)]
  | e :: rest, u, p =>
    if e.1 = u then (u, p) :: rest else e :: setPud rest u p
end Tinode

namespace Tinode
/-- `delete(t.perUser, u)`. -/
def delPud (l : List (Uid × PerUserData)) (u : Uid) : List (Uid × PerUserData) :=
  l.filter (fun e => e.1 != u)
end Tinode

namespace Tinode
/-- In-memory topic state (fields consulted by the claims; timers,
user-agent bookkeeping and the proxy flag are not). -/
structure TopicState where
  name : String
  original : String
  cat : TopicCat
  lastId : Int
  clearId : Int
  owner : Uid
  accessAuth : AccessMode
  accessAnon : AccessMode
  perUser : List (Uid × PerUserData)
  sessions : List SessionRef
  deriving Repr, DecidableEq
end Tinode

namespace Tinode
/-- `types.InviteAction`. -/
inductive InviteAction where
  | InvJoin | InvAppr | InvInfo
  deriving Repr, DecidableEq
end Tinode

namespace Tinode
/-- Storage-adapter writes issued by the topic handlers. -/
inductive StoreOp where
  | messageSave (topic : String) (seqId : Int) (fromUid : Uid)
  | subsCreate (topic : String) (u : Uid) (want given : AccessMode) (priv : Payload)
  | subsUpdateMode (topic : String) (u : Uid) (want given : Option AccessMode)
  | subsUpdateCounters (topic : String) (u : Uid) (recv read : Int)
  | subsUpdateGiven (topic : String) (u : Uid) (given : AccessMode)
  | messagesDelete (topic : String) (u : Uid) (hard : Bool) (before : Int)
  deriving Repr, DecidableEq
end Tinode

namespace Tinode
/-- Events routed out of the topic: invite data-messages through the hub
and presence notifications. -/
inductive Route where
  | invite (notify target fromUid : Uid) (act : InviteAction)
      (want given : AccessMode)
  | presMessageSent (seqId : Int)
  | presMessageCount (clear recv read : Int)
  | presMessageDel (clear : Int)
  | presChange (u : Uid) (what : String)
  | presTopicSubscribed (u : Uid)
  | presTopicGone (u : Uid)
  deriving Repr, DecidableEq
end Tinode

namespace Tinode
/-- A data message drawn from the broadcast mailbox: the parsed sender
uid, the originating session (`nil` for internally generated invites),
the client packet id, and the session id to skip on fan-out. -/
structure DataIn where
  fromUid : Uid
  sessFrom : Option SessionRef
  id : String
  sessSkip : Option String
  deriving Repr, DecidableEq
end Tinode

namespace Tinode
structure DataResult where
  state : TopicState
  toSender : List Ctrl
  ops : List StoreOp
  routes : List Route
  delivered : List SessionRef
  deriving Repr, DecidableEq
end Tinode

namespace Tinode
/-- The fan-out loop of `Topic.run`: every attached session except the
skipped one (the push-receipt bookkeeping rides on the same loop and is
not modelled). -/
def fanOut (sessions : List SessionRef) (skip : Option String) : List SessionRef :=
  sessions.filter (fun s =>
    match skip with
    | some sid => s.sid != sid
    | none => true)
end Tinode

namespace Tinode
/-- `Topic.run`, `msg.Data != nil` branch: permission check for
client-originated messages, persistence with `SeqId = lastId + 1`, the
`lastId` bump, the conditional 202 acknowledgement, the `msg` presence
event and the fan-out. -/
def runData (t : TopicState) (msg : DataIn) (saveOk : Bool) : DataResult :=
  let userData := getPud t.perUser msg.fromUid
  if msg.sessFrom.isSome &&
      (userData.modeWant &&& userData.modeGiven &&& ModePub == 0) then
    ⟨t, [ErrPermissionDenied msg.id t.original], [], [], []⟩
  else if !saveOk then
    ⟨t, [ErrUnknown msg.id t.original], [], [], []⟩
  else
    let t1 := { t with lastId := t.lastId + 1 }
    let acks := if msg.id ≠ "" then
        [{ NoErrAccepted msg.id t.original with seqParam := some t1.lastId }]
      else []
    ⟨t1, acks, [.messageSave t.name (t.lastId + 1) msg.fromUid],
      [.presMessageSent (t.lastId + 1)], fanOut t.sessions msg.sessSkip⟩
end Tinode

namespace Tinode
/-! ### `Topic.run`, broadcast branch for `{info}` (C3) -/
structure InfoIn where
  fromUid : Uid
  what : String
  seqId : Int
  sessSkip : Option String
  deriving Repr, DecidableEq
end Tinode

namespace Tinode
structure InfoResult where
  state : TopicState
  ops : List StoreOp
  routes : List Route
  delivered : List SessionRef
  deriving Repr, DecidableEq
end Tinode

namespace Tinode
/-- `Topic.run`, `msg.Info != nil` branch: drop seq ids above `lastId`,
monotonic `read`/`recv` counter updates with the `recvId ≥ readId` fixup,
persistence, the counter presence event, and the fan-out (every `continue`
in the Go source also skips the fan-out). -/
def runInfo (t : TopicState) (i : InfoIn) (storeOk : Bool) : InfoResult :=
  if i.seqId > t.lastId then ⟨t, [], [], []⟩
  else if i.what = "read" ∨ i.what = "recv" then
    let pud0 := getPud t.perUser i.fromUid
    if (i.what = "read" ∧ i.seqId ≤ pud0.readId) ∨
        (¬ i.what = "read" ∧ i.seqId ≤ pud0.recvId) then
      ⟨t, [], [], []⟩
    else
      let pud1 := if i.what = "read" then { pud0 with readId := i.seqId }
        else { pud0 with recvId := i.seqId }
      let read1 : Int := if i.what = "read" then i.seqId else 0
      let recv1 : Int := if i.what = "read" then 0 else i.seqId
      let pud2 := if pud1.readId > pud1.recvId then
          { pud1 with recvId := pud1.readId } else pud1
      let recv2 : Int := if pud1.readId > pud1.recvId then pud1.readId else recv1
      if !storeOk then ⟨t, [], [], []⟩
      else
        ⟨{ t with perUser := setPud t.perUser i.fromUid pud2 },
          [.subsUpdateCounters t.name i.fromUid pud2.recvId pud2.readId],
          [.presMessageCount 0 recv2 read1], fanOut t.sessions i.sessSkip⟩
  else ⟨t, [], [], fanOut t.sessions i.sessSkip⟩
end Tinode

namespace Tinode
/-- A `{del what="msg"}` request: the packet id, the `before` watermark,
whether an explicit message list was supplied, and the hard flag. -/
structure DelIn where
  id : String
  before : Int
  hasList : Bool
  hard : Bool
  deriving Repr, DecidableEq
end Tinode

namespace Tinode
structure DelResult where
  state : TopicState
  toSender : List Ctrl
  ops : List StoreOp
  routes : List Route
  err : Bool
  deriving Repr, DecidableEq
end Tinode

namespace Tinode
/-- `Topic.replyDelMsg`: parameter validation, silent demotion of hard to
soft without the D bit, the no-op check, the store delete, and either the
topic-wide `clearId` bump with the `{pres what=del}` broadcast (hard) or
the per-user `clearId`/`readId`/`recvId` update (soft). -/
def replyDelMsg (t : TopicState) (uid : Uid) (del : DelIn) (storeOk : Bool) :
    DelResult :=
  if del.before > t.lastId ∨ (del.before ≤ 0 ∧ ¬ del.hasList) then
    ⟨t, [ErrMalformed del.id t.original], [], [], true⟩
  else
    let pud := getPud t.perUser uid
    let hard := if pud.modeGiven &&& pud.modeWant &&& ModeDelete == 0 then false
      else del.hard
    if del.before > 0 ∧
        (del.before ≤ t.clearId ∨ (¬ hard ∧ del.before ≤ pud.clearId)) then
      ⟨t, [InfoNoAction del.id t.original], [], [], false⟩
    else if del.before > 0 ∧ !storeOk then
      ⟨t, [ErrUnknown del.id t.original], [], [], true⟩
    else
      let ops : List StoreOp := if del.before > 0 then
          [.messagesDelete (if t.cat = .me then "" else t.name) uid hard del.before]
        else []
      if hard then
        ⟨{ t with clearId := del.before }, [NoErr del.id t.original], ops,
          [.presMessageDel del.before], false⟩
      else
        let pud1 := { pud with clearId := del.before }
        let pud2 := if pud1.readId < pud1.clearId then
            { pud1 with readId := pud1.clearId } else pud1
        let pud3 := if pud2.recvId < pud2.readId then
            { pud2 with recvId := pud2.readId } else pud2
        ⟨{ t with perUser := setPud t.perUser uid pud3 },
          [NoErr del.id t.original], ops,
          [.presMessageCount pud3.clearId 0 0], false⟩
end Tinode

namespace Tinode
/-- Go `m & ^bit`: clear the bits of the mask from `m` (the common bits
are a sub-pattern of `m`, so subtraction clears exactly them). -/
def andNot (m bit : AccessMode) : AccessMode := m - (m &&& bit)
end Tinode

namespace Tinode
structure EvictResult where
  state : TopicState
  routes : List Route
  notes : List (SessionRef × Ctrl)
  deriving Repr, DecidableEq
end Tinode

namespace Tinode
/-- `Topic.evictUser`: presence announcements, removal (or online reset)
of the cached per-user data, and detaching of the user's sessions with an
`evicted` note to each except `ignore`. -/
def evictUser (t : TopicState) (uid : Uid) (unsub : Bool) (ignore : Option String) :
    EvictResult :=
  let routes : List Route :=
    if t.cat = .grp then
      if unsub then [.presChange uid "unsub", .presTopicGone uid]
      else [.presChange uid "off"]
    else if t.cat = .p2p ∧ unsub then [.presTopicGone uid]
    else []
  let perUser1 := if unsub then delPud t.perUser uid
    else setPud t.perUser uid { getPud t.perUser uid with online := 0 }
  let notes := (t.sessions.filter (fun s => s.uid == uid)).filterMap
    (fun s => if some s.sid = ignore then none else some (s, NoErrEvicted "" t.original))
  let sessions1 := t.sessions.filter (fun s => s.uid != uid)
  ⟨{ t with perUser := perUser1, sessions := sessions1 }, routes, notes⟩
end Tinode

namespace Tinode
structure SubResult where
  state : TopicState
  reply : List Ctrl
  ops : List StoreOp
  routes : List Route
  notes : List (SessionRef × Ctrl) := []
  err : Bool
  deriving Repr, DecidableEq
end Tinode

namespace Tinode
/-- Intermediate result of the two `requestSub` branches: the (possibly
already partially mutated) topic state, the value of the local `userData`
variable when the branch falls through — after an ownership transfer this
is the *previous owner's* stripped data, exactly as in the source, where
the variable is reused — the resolved `modeWant`, whether the subscription
already existed, and the successful storage writes. -/
structure SubCore where
  state : TopicState
  userData : PerUserData
  modeWant : AccessMode
  existingSub : Bool
  ops : List StoreOp
  deriving Repr, DecidableEq
end Tinode

namespace Tinode
/-- `Topic.requestSub`, no-prior-subscription branch: default want, the
rejection of an explicit `N`, the p2p public denormalization (the other
user's public value is the `otherPublic` parameter), and the subscription
insert.  The storage error replies of the p2p user fetch and of the
insert are the same ctrl, collapsed into one `dbOk` check. -/
def requestSubNew (t : TopicState) (sessUid : Uid) (pktId : String)
    (modeWant0 : AccessMode) (explicitWant : Bool) (priv : Payload)
    (otherPublic : Payload) (dbOk : Bool) : Except (List Ctrl) SubCore :=
  if modeWant0 = ModeNone ∧ explicitWant then .error [ErrMalformed pktId t.original]
  else
    let modeWant := if modeWant0 = ModeNone then t.accessAuth else modeWant0
    let userData0 : PerUserData :=
      { priv := priv, modeGiven := t.accessAuth, modeWant := modeWant }
    let userData := if t.cat = .p2p then { userData0 with public := otherPublic }
      else userData0
    if ¬ dbOk then .error [ErrUnknown pktId t.original]
    else .ok ⟨t, userData, modeWant, false,
      [.subsCreate t.name sessUid userData.modeWant userData.modeGiven priv]⟩
end Tinode

namespace Tinode
/-- Tail of the existing-subscription branch after the ownership chain:
the `accessAuth` refresh of an empty given, defaulting an empty want to
the given mode, the conditional mode update write, and the ownership
transfer block (which reuses the `userData` variable for the previous
owner, so the returned core carries the stripped previous-owner data). -/
def requestSubExistingRest (t : TopicState) (sessUid : Uid) (pktId : String)
    (userData1 : PerUserData) (modeWant1 : AccessMode) (updGiven1 : Bool)
    (ownerChange : Bool) (dbOk : Bool) : Except (List Ctrl) SubCore :=
  let refresh := userData1.modeGiven = ModeNone ∧ t.accessAuth ≠ ModeNone
  let userData2 := if refresh then { userData1 with modeGiven := t.accessAuth }
    else userData1
  let updGiven2 := if refresh then true else updGiven1
  let modeWant2 := if modeWant1 = ModeNone then userData2.modeGiven else modeWant1
  let updWant := userData2.modeWant ≠ modeWant2
  let userData3 := if userData2.modeWant ≠ modeWant2 then
      { userData2 with modeWant := modeWant2 } else userData2
  let ops1 : List StoreOp :=
    if updWant ∨ updGiven2 then
      [.subsUpdateMode t.name sessUid (if updWant then some modeWant2 else none)
        (if updGiven2 then some userData3.modeGiven else none)]
    else []
  if (updWant ∨ updGiven2) ∧ ¬ dbOk then .error [ErrUnknown pktId t.original]
  else if ownerChange then
    let prev := getPud t.perUser t.owner
    let prev1 := { prev with modeGiven := andNot prev.modeGiven ModeOwner,
                             modeWant := andNot prev.modeWant ModeOwner }
    let t1 := { t with perUser := setPud t.perUser t.owner prev1, owner := sessUid }
    .ok ⟨t1, prev1, modeWant2, true,
      ops1 ++ [.subsUpdateMode t.name t.owner (some prev1.modeWant) (some prev1.modeGiven)]⟩
  else .ok ⟨t, userData3, modeWant2, true, ops1⟩
end Tinode

namespace Tinode
/-- `Topic.requestSub`, existing-subscription branch: the want default
from the cache, the ownership chain (owner self-protection, transfer
detection, the owner's given self-upgrade, the rejection of an ownership
request by a non-owner, the sharer given upgrade), then the rest. -/
def requestSubExisting (t : TopicState) (sessUid : Uid) (pktId : String)
    (userData0 : PerUserData) (modeWantIn : AccessMode) (explicitWant : Bool)
    (dbOk : Bool) : Except (List Ctrl) SubCore :=
  let modeWant1 := if ¬ explicitWant ∧ modeWantIn = ModeNone then userData0.modeWant
    else modeWantIn
  if isOwner userData0.modeGiven then
    if t.owner = sessUid ∧ (¬ isOwner modeWant1 ∨ isBanned modeWant1) then
      .error [ErrMalformed pktId t.original]
    else
      let ownerChange := isOwner modeWant1 ∧ ¬ isOwner userData0.modeWant
      let upgrade := isOwner modeWant1 ∧ ¬ check userData0.modeGiven modeWant1
      let userData1 := if upgrade then
          { userData0 with modeGiven := userData0.modeGiven ||| modeWant1 }
        else userData0
      requestSubExistingRest t sessUid pktId userData1 modeWant1 upgrade ownerChange dbOk
  else if isOwner modeWant1 then .error [ErrMalformed pktId t.original]
  else if isManager userData0.modeGiven ∧ isManager modeWant1 then
    let upgrade := ¬ check userData0.modeGiven (andNot modeWant1 ModeBanned)
    let userData1 := if upgrade then
        { userData0 with modeGiven := userData0.modeGiven ||| andNot modeWant1 ModeBanned }
      else userData0
    requestSubExistingRest t sessUid pktId userData1 modeWant1 upgrade false dbOk
  else requestSubExistingRest t sessUid pktId userData0 modeWant1 false false dbOk
end Tinode

namespace Tinode
/-- Common tail of `requestSub`: the `t.perUser[sess.uid] = userData`
write-back, the banned checks (with eviction on self-ban), the
subscribed-presence event and the invite routing when the granted mode
does not cover the wanted one. -/
def requestSubTail (t0 : TopicState) (core : SubCore) (sess : SessionRef)
    (pktId : String) (loaded : Bool) : SubResult :=
  let t2 := { core.state with
    perUser := setPud core.state.perUser sess.uid core.userData }
  if isBanned core.modeWant then
    let ev := evictUser t2 sess.uid false (some sess.sid)
    ⟨ev.state, [], core.ops, ev.routes, ev.notes, true⟩
  else if isBanned core.userData.modeGiven then
    ⟨t2, [ErrPermissionDenied pktId t0.original], core.ops, [], [], true⟩
  else
    let routes1 : List Route :=
      if ¬ core.existingSub ∧ (t0.cat = .p2p ∨ ¬ loaded) then
        [.presTopicSubscribed sess.uid]
      else []
    let routes2 : List Route :=
      if ¬ check core.userData.modeGiven core.modeWant then
        (t2.perUser.filter
            (fun e => e.2.modeGiven &&& e.2.modeWant &&& ModeShare != 0)).map
          (fun e => Route.invite e.1 sess.uid sess.uid .InvAppr
            core.modeWant core.userData.modeGiven)
        ++ [Route.invite sess.uid sess.uid sess.uid .InvInfo
            core.modeWant core.userData.modeGiven]
      else []
    ⟨t2, [], core.ops, routes1 ++ routes2, [], false⟩
end Tinode

namespace Tinode
/-- `Topic.requestSub`: parse the wanted mode (a parse error leaves it
`N`, banned absorbs), branch on prior subscription, then the common
tail. -/
def requestSub (t : TopicState) (sess : SessionRef) (pktId want : String)
    (priv : Payload) (loaded : Bool) (otherPublic : Payload) (dbOk : Bool) :
    SubResult :=
  let modeWantP := if want ≠ "" then (unmarshalText want).getD ModeNone else ModeNone
  let explicitWant := want ≠ ""
  let modeWant0 := if isBanned modeWantP then ModeBanned else modeWantP
  let branch :=
    match lookupPud t.perUser sess.uid with
    | none => requestSubNew t sess.uid pktId modeWant0 explicitWant priv
        otherPublic dbOk
    | some ud => requestSubExisting t sess.uid pktId ud modeWant0 explicitWant dbOk
  match branch with
  | .error cs => { state := t, reply := cs, ops := [], routes := [], err := true }
  | .ok core => requestSubTail t core sess pktId loaded
end Tinode

namespace Tinode
/-- Tail of `Topic.approveSub`: the target's self-ban check and the
invite/notification routing. -/
def approveSubTail (t : TopicState) (sess : SessionRef) (target : Uid)
    (setId : String) (userData : PerUserData) (modeGiven givenBefore : AccessMode)
    (ops : List StoreOp) : SubResult :=
  if isBanned userData.modeWant then
    ⟨t, [ErrPermissionDenied setId t.original], ops, [], [], true⟩
  else
    let routes1 : List Route :=
      if ¬ isBanned modeGiven then
        if userData.modeWant = ModeNone then
          [.invite target target sess.uid .InvJoin userData.modeWant modeGiven]
        else if givenBefore ≠ modeGiven then
          [.invite target target sess.uid .InvInfo userData.modeWant modeGiven]
        else []
      else []
    let routes2 : List Route :=
      if givenBefore ≠ modeGiven then
        [.invite sess.uid target sess.uid .InvInfo userData.modeWant modeGiven]
      else []
    ⟨t, [], ops, routes1 ++ routes2, [], false⟩
end Tinode

namespace Tinode
/-- `Topic.approveSub`: the manager entry check (`IsManager` on both the
stored given and want of the caller), parsing of the granted mode, the
owner-only check on granting `O`, the new-invite insert or the given-mode
update of an existing subscription — whose store write the source keys by
`sess.uid`, the session user, not by `target` — and the tail. -/
def approveSub (t : TopicState) (sess : SessionRef) (target : Uid)
    (setId mode : String) (dbOk : Bool) : SubResult :=
  let callerOk := match lookupPud t.perUser sess.uid with
    | none => false
    | some ud => isManager ud.modeGiven && isManager ud.modeWant
  if callerOk = false then ⟨t, [ErrPermissionDenied setId t.original], [], [], [], true⟩
  else
    let modeGivenP := if mode ≠ "" then (unmarshalText mode).getD ModeNone
      else ModeNone
    let modeGiven0 := if isBanned modeGivenP then ModeBanned else modeGivenP
    if isOwner modeGiven0 ∧ t.owner ≠ sess.uid then
      ⟨t, [ErrPermissionDenied setId t.original], [], [], [], true⟩
    else
      match lookupPud t.perUser target with
      | none =>
        if modeGiven0 = ModeNone ∧ t.accessAuth = ModeNone then
          ⟨t, [ErrMalformed setId t.original], [], [], [], true⟩
        else
          let modeGiven := if modeGiven0 = ModeNone then t.accessAuth else modeGiven0
          if ¬ dbOk then ⟨t, [ErrUnknown setId t.original], [], [], [], true⟩
          else
            let userData : PerUserData :=
              { modeGiven := modeGiven, modeWant := ModeNone, priv := none }
            approveSubTail { t with perUser := setPud t.perUser target userData }
              sess target setId userData modeGiven ModeNone
              [.subsCreate t.name target ModeNone modeGiven none]
      | some ud =>
        let givenBefore := ud.modeGiven
        if modeGiven0 = ModeNone then
          approveSubTail t sess target setId ud ud.modeGiven givenBefore []
        else if modeGiven0 ≠ ud.modeGiven then
          if ¬ dbOk then ⟨t, [], [], [], [], true⟩
          else
            let ud1 := { ud with modeGiven := modeGiven0 }
            approveSubTail { t with perUser := setPud t.perUser target ud1 }
              sess target setId ud1 modeGiven0 givenBefore
              [.subsUpdateGiven t.name sess.uid modeGiven0]
        else approveSubTail t sess target setId ud modeGiven0 givenBefore []
end Tinode

namespace Tinode
/-- A concrete group topic: user 1 (the sender, mode RWP), user 2 with
effective mode RW — a subscriber without the P (presence) bit — both with
one attached session; seven messages already assigned. -/
def topicC1 : TopicState :=
  { name := "grpTest", original := "grpTest", cat := .grp, lastId := 7,
    clearId := 0, owner := 1, accessAuth := ModePublic, accessAnon := 0,
    perUser := [
      (1, { zeroPud with modeWant := ModePublic, modeGiven := ModePublic }),
      (2, { zeroPud with modeWant := ModePubSub, modeGiven := ModePubSub })],
    sessions := [⟨"sA", 1, ""⟩, ⟨"sB", 2, ""⟩] }
end Tinode

namespace Tinode
/-- The keys of the per-user map. -/
def pudKeys (l : List (Uid × PerUserData)) : List Uid := l.map (fun e => e.1)
end Tinode

namespace Tinode
/-- The chain `0 ≤ t.clearId ≤ pud.clearId ≤ pud.readId ≤ pud.recvId ≤
t.lastId` for one user, as the spec states it. -/
def chainOk (t : TopicState) (u : Uid) : Prop :=
  0 ≤ t.clearId ∧ t.clearId ≤ (getPud t.perUser u).clearId ∧
  (getPud t.perUser u).clearId ≤ (getPud t.perUser u).readId ∧
  (getPud t.perUser u).readId ≤ (getPud t.perUser u).recvId ∧
  (getPud t.perUser u).recvId ≤ t.lastId
end Tinode

namespace Tinode
instance (t : TopicState) (u : Uid) : Decidable (chainOk t u) := by
  unfold chainOk; infer_instance
end Tinode

namespace Tinode
/-- The hard flag after `replyDelMsg`'s silent demotion for a requester
without the D bit. -/
def effectiveHard (t : TopicState) (uid : Uid) (del : DelIn) : Bool :=
  if (getPud t.perUser uid).modeGiven &&& (getPud t.perUser uid).modeWant &&&
      ModeDelete == 0 then false
  else del.hard
end Tinode

namespace Tinode
/-- The conditions under which the `{info}` branch updates state. -/
def infoApplies (t : TopicState) (i : InfoIn) : Prop :=
  ¬ i.seqId > t.lastId ∧ (i.what = "read" ∨ i.what = "recv") ∧
  ¬ ((i.what = "read" ∧ i.seqId ≤ (getPud t.perUser i.fromUid).readId) ∨
     (¬ i.what = "read" ∧ i.seqId ≤ (getPud t.perUser i.fromUid).recvId))
end Tinode

namespace Tinode
instance (t : TopicState) (i : InfoIn) : Decidable (infoApplies t i) := by
  unfold infoApplies; infer_instance
end Tinode

namespace Tinode
/-- The per-user record after the monotonic counter update. -/
def infoPud1 (t : TopicState) (i : InfoIn) : PerUserData :=
  if i.what = "read" then { getPud t.perUser i.fromUid with readId := i.seqId }
  else { getPud t.perUser i.fromUid with recvId := i.seqId }
end Tinode

namespace Tinode
/-- The per-user record after the `recvId ≥ readId` fixup. -/
def infoPud2 (t : TopicState) (i : InfoIn) : PerUserData :=
  if (infoPud1 t i).readId > (infoPud1 t i).recvId then
    { infoPud1 t i with recvId := (infoPud1 t i).readId }
  else infoPud1 t i
end Tinode

namespace Tinode
/-- The requester's per-user record after a soft delete: `clearId` raised
to the watermark, `readId`/`recvId` raised to restore the chain. -/
def delPud3 (t : TopicState) (uid : Uid) (del : DelIn) : PerUserData :=
  let pud := getPud t.perUser uid
  let pud1 := { pud with clearId := del.before }
  let pud2 := if pud1.readId < pud1.clearId then { pud1 with readId := pud1.clearId }
    else pud1
  if pud2.recvId < pud2.readId then { pud2 with recvId := pud2.readId } else pud2
end Tinode

namespace Tinode
/-- A concrete group topic for the delete/note claims: nine messages,
nothing cleared, user 1 with mode RWPD (hard-delete capable), read up to
2, received up to 3. -/
def topicDel : TopicState :=
  { name := "grpDel", original := "grpDel", cat := .grp, lastId := 9,
    clearId := 0, owner := 1, accessAuth := ModePublic, accessAnon := 0,
    perUser :=
      [(1, { zeroPud with modeWant := ModeP2P, modeGiven := ModeP2P, readId := 2, recvId := 3 })],
    sessions := [⟨"sA", 1, ""⟩] }
end Tinode

namespace Tinode
/-- `ModeManager`: everything but ownership. -/
def ModeManager : AccessMode :=
  ModeSub ||| ModePub ||| ModePres ||| ModeShare ||| ModeDelete
end Tinode

namespace Tinode
/-- A concrete group topic for the approve-subscription claim: user 1 is
the owner (full mode), user 2 an ordinary subscriber with mode RWP. -/
def topicC7 : TopicState :=
  { name := "grpApr", original := "grpApr", cat := .grp, lastId := 0,
    clearId := 0, owner := 1, accessAuth := ModePublic, accessAnon := 0,
    perUser := [
      (1, { zeroPud with modeWant := ModeFull, modeGiven := ModeFull }),
      (2, { zeroPud with modeWant := ModePublic, modeGiven := ModePublic })],
    sessions := [⟨"s1", 1, ""⟩] }
end Tinode

namespace Tinode
/-- The wanted mode as parsed at the top of `requestSub`: empty or
unparsable strings give `N`, banned absorbs. -/
def parsedWant (want : String) : AccessMode :=
  if isBanned (if want ≠ "" then (unmarshalText want).getD ModeNone else ModeNone)
  then ModeBanned
  else (if want ≠ "" then (unmarshalText want).getD ModeNone else ModeNone)
end Tinode

namespace Tinode
/-- The wanted mode after the cache default of the existing-subscription
branch: a non-explicit empty want falls back to the stored want. -/
def resolvedWant (ud : PerUserData) (want : String) : AccessMode :=
  if ¬ (want ≠ "") ∧ parsedWant want = ModeNone then ud.modeWant
  else parsedWant want
end Tinode

namespace Tinode
/-- At most one user carries the O bit in the stored given mode. -/
def atMostOneGivenOwner (l : List (Uid × PerUserData)) : Prop :=
  ∀ e1 ∈ l, ∀ e2 ∈ l, isOwner e1.2.modeGiven = true →
    isOwner e2.2.modeGiven = true → e1.1 = e2.1
end Tinode

namespace Tinode
/-- A user's effective mode (`want & given`) contains the O bit. -/
def effOwner (p : PerUserData) : Bool := isOwner (p.modeWant &&& p.modeGiven)
end Tinode

namespace Tinode
/-- The previous owner's record with the O bit stripped from both want
and given, as built by the ownership-transfer block. -/
def stripPrev (t : TopicState) : PerUserData :=
  { getPud t.perUser t.owner with
      modeGiven := andNot (getPud t.perUser t.owner).modeGiven ModeOwner,
      modeWant := andNot (getPud t.perUser t.owner).modeWant ModeOwner }
end Tinode

namespace Tinode
def topicC2 : TopicState :=
  { name := "grpC2", original := "grpC2", cat := .grp, lastId := 0,
    clearId := 0, owner := 1, accessAuth := ModePublic, accessAnon := 0,
    perUser := [
      (1, { zeroPud with modeWant := ModeFull, modeGiven := ModeFull }),
      (2, { zeroPud with modeWant := ModePublic, modeGiven := ModePublic })],
    sessions := [⟨"sA", 1, ""⟩, ⟨"sB", 2, ""⟩] }
end Tinode

namespace Tinode
instance (l : List (Uid × PerUserData)) : Decidable (atMostOneGivenOwner l) := by
  unfold atMostOneGivenOwner
  infer_instance
end Tinode

namespace Tinode.Hub
/-- Modelled from the spec: the newer access-mode vocabulary used by
`hub.go` (`ModeCFull/ModeJoin/ModeApprove/…`); its defining file is not
among the sources.  Bit-packed, one bit per permission. -/
def ModeJoin : AccessMode := 1
end Tinode.Hub

namespace Tinode.Hub
/-- Modelled from the spec: read bit of the newer vocabulary. -/
def ModeRead : AccessMode := 2
end Tinode.Hub

namespace Tinode.Hub
/-- Modelled from the spec: write bit of the newer vocabulary. -/
def ModeWrite : AccessMode := 4
end Tinode.Hub

namespace Tinode.Hub
/-- Modelled from the spec: presence bit of the newer vocabulary. -/
def ModePres : AccessMode := 8
end Tinode.Hub

namespace Tinode.Hub
/-- Modelled from the spec: approve bit of the newer vocabulary. -/
def ModeApprove : AccessMode := 16
end Tinode.Hub

namespace Tinode.Hub
/-- Modelled from the spec: share bit of the newer vocabulary. -/
def ModeShare : AccessMode := 32
end Tinode.Hub

namespace Tinode.Hub
/-- Modelled from the spec: delete bit of the newer vocabulary. -/
def ModeDelete : AccessMode := 64
end Tinode.Hub

namespace Tinode.Hub
/-- Modelled from the spec: owner bit of the newer vocabulary. -/
def ModeOwner : AccessMode := 128
end Tinode.Hub

namespace Tinode.Hub
/-- Modelled from the spec: `ModeCFull`, every permission bit set. -/
def ModeCFull : AccessMode :=
  ModeJoin ||| ModeRead ||| ModeWrite ||| ModePres ||| ModeApprove |||
  ModeShare ||| ModeDelete ||| ModeOwner
end Tinode.Hub

namespace Tinode.Hub
/-- Modelled from the spec: `ModeNone` of the newer vocabulary. -/
def ModeNone : AccessMode := 0
end Tinode.Hub

namespace Tinode.Hub
/-- Modelled from the spec: `IsOwner` of the newer vocabulary. -/
def isOwner (a : AccessMode) : Bool := a &&& ModeOwner != 0
end Tinode.Hub

namespace Tinode.Hub
/-- Modelled from the spec: the outcome of parsing the `set` block's
`DefaultAcs` strings (`parseTopicAccess`, hub.go:1022).  The newer mode
parser itself is outside the sources, so the parsed values are taken as
input: `err` mirrors the error return of `parseTopicAccess`,
`authInvalid`/`anonInvalid` the `IsInvalid()` checks of topicInit, and
`auth`/`anon` the returned modes (defaults when the strings were
empty). -/
structure ParsedAcs where
  err : Bool
  authInvalid : Bool
  anonInvalid : Bool
  auth : AccessMode
  anon : AccessMode
  deriving Repr, DecidableEq
end Tinode.Hub

namespace Tinode.Hub
/-- The `new…` branch of `topicInit` (hub.go:625-713): the creator
becomes owner with `ModeCFull` want and given; the default access is
taken from the `set` block when present — an invalid mode becomes
`ModeNone`, and a default access containing the O bit is *stripped of
O* (`auth & ^types.ModeOwner`), not rejected; a supplied `set.sub.mode`
replaces the owner's want but `ModeJoin | ModeOwner` are or-ed back in;
the topic is persisted via `store.Topics.Create` (failure answers
ErrUnknown and creates nothing).  `subMode` is the value of
`parseMode(set.sub.mode, ModeCFull)` when `set.sub.mode` is non-empty. -/
def topicInitNew (creator : Uid) (name : String) (defAuth defAnon : AccessMode)
    (acs : Option ParsedAcs) (subMode : Option AccessMode)
    (priv : Payload) (dbOk : Bool) : Option TopicState × Bool :=
  let access : AccessMode × AccessMode :=
    match acs with
    | none => (defAuth, defAnon)
    | some pa =>
      if pa.err then
        (if pa.authInvalid then ModeNone else pa.auth,
         if pa.anonInvalid then ModeNone else pa.anon)
      else if isOwner pa.auth || isOwner pa.anon then
        (andNot pa.auth ModeOwner, andNot pa.anon ModeOwner)
      else (pa.auth, pa.anon)
  let userWant : AccessMode :=
    match subMode with
    | none => ModeCFull
    | some m => m ||| ModeJoin ||| ModeOwner
  if ¬ dbOk then (none, true)
  else
    let ts : TopicState :=
      { name := name, original := name, cat := .grp, lastId := 0, clearId := 0,
        owner := creator, accessAuth := access.1, accessAnon := access.2,
        perUser := [(creator, { zeroPud with modeWant := userWant, modeGiven := ModeCFull, priv := priv })],
        sessions := [] }
    (some ts, false)
end Tinode.Hub

namespace Tinode.Token
theorem leBytes_length (w n : Nat) : (leBytes w n).length = w := by
  induction w generalizing n with
  | zero => rfl
  | succ w ih => simp [leBytes, ih]
end Tinode.Token

namespace Tinode.Token
theorem mod_mul_decomp (n a b : Nat) : n % (a * b) = a * (n / a % b) + n % a := by
  conv_lhs => rw [← Nat.div_add_mod (n % (a * b)) a]
  rw [Nat.mod_mod_of_dvd _ ⟨b, rfl⟩, Nat.mod_mul_right_div_self]
end Tinode.Token

namespace Tinode.Token
theorem leDecode_leBytes (w n : Nat) : leDecode (leBytes w n) = n % 256 ^ w := by
  induction w generalizing n with
  | zero => simp [leBytes, leDecode, Nat.mod_one]
  | succ w ih =>
    rw [pow_succ', mod_mul_decomp]
    simp [leBytes, leDecode, ih]
    omega
end Tinode.Token

namespace Tinode.Token
theorem genToken_take8 (ta : TokenAuth) (uid authLvl expires : Nat) :
    (genToken ta uid authLvl expires).take 8 = leBytes 8 uid := by
  simp [genToken, leBytes]
end Tinode.Token

namespace Tinode.Token
theorem genToken_expSeg (ta : TokenAuth) (uid authLvl expires : Nat) :
    ((genToken ta uid authLvl expires).drop 8).take 4 = leBytes 4 expires := by
  simp [genToken, leBytes]
end Tinode.Token

namespace Tinode.Token
theorem genToken_lvlSeg (ta : TokenAuth) (uid authLvl expires : Nat) :
    ((genToken ta uid authLvl expires).drop 12).take 2 = leBytes 2 authLvl := by
  simp [genToken, leBytes]
end Tinode.Token

namespace Tinode.Token
theorem genToken_serSeg (ta : TokenAuth) (uid authLvl expires : Nat) :
    ((genToken ta uid authLvl expires).drop 14).take 2 =
      leBytes 2 ta.tokenSerialNumber := by
  simp [genToken, leBytes]
end Tinode.Token

namespace Tinode.Token
theorem genToken_take16 (ta : TokenAuth) (uid authLvl expires : Nat) :
    (genToken ta uid authLvl expires).take 16 =
      leBytes 8 uid ++ leBytes 4 expires ++ leBytes 2 authLvl ++
        leBytes 2 ta.tokenSerialNumber := by
  simp [genToken, leBytes]
end Tinode.Token

namespace Tinode.Token
theorem genToken_drop16 (ta : TokenAuth) (uid authLvl expires : Nat) :
    (genToken ta uid authLvl expires).drop 16 =
      ta.mac (leBytes 8 uid ++ leBytes 4 expires ++ leBytes 2 authLvl ++
        leBytes 2 ta.tokenSerialNumber) := by
  simp [genToken, leBytes]
end Tinode.Token

namespace Tinode.Token
theorem genToken_length (ta : TokenAuth) (uid authLvl expires : Nat)
    (hmac32 : ∀ m, (ta.mac m).length = 32) :
    (genToken ta uid authLvl expires).length = 48 := by
  simp [genToken, leBytes, hmac32]
end Tinode.Token

namespace Tinode.Token
/-- C5: token round-trip and rejection conditions of `Authenticate`.
For a uid fitting 64 bits, an auth level within range, the configured
serial fitting 16 bits, a positive lifetime and an expiry fitting 32 bits,
`GenSecret` yields exactly 48 bytes in the little-endian layout
uid/expires/authLevel/serial/HMAC, and `Authenticate` of those bytes
returns the same uid and auth level with the encoded expiry; a token is
rejected with ErrMalformed when shorter than 48 bytes, when the auth level
is out of range, or when the serial differs from the configured one, with
ErrFailed when the MAC does not verify, and with ErrExpired when the
expiry is less than one second away. -/
theorem token_codec_spec (ta : TokenAuth) (uid authLvl : Nat) (lifetime : Int)
    (now : Nat)
    (hmac32 : ∀ m, (ta.mac m).length = 32)
    (huid : uid < 2 ^ 64) (hlvl : authLvl ≤ LevelRoot)
    (hser : ta.tokenSerialNumber < 2 ^ 16)
    (hlt : 1 ≤ lifetime) (hexp : now + lifetime.toNat < 2 ^ 32) :
    (GenSecret ta uid authLvl lifetime now =
        .ok (genToken ta uid authLvl (now + lifetime.toNat), now + lifetime.toNat) ∧
      (genToken ta uid authLvl (now + lifetime.toNat)).length = 48 ∧
      Authenticate ta (genToken ta uid authLvl (now + lifetime.toNat)) now =
        .ok (uid, authLvl, now + lifetime.toNat)) ∧
    (∀ t : List Nat, t.length < 48 →
      Authenticate ta t now = .error .ErrMalformed) ∧
    (∀ t : List Nat, ¬ t.length < 48 → LevelRoot < leDecode ((t.drop 12).take 2) →
      Authenticate ta t now = .error .ErrMalformed) ∧
    (∀ t : List Nat, ¬ t.length < 48 → ¬ LevelRoot < leDecode ((t.drop 12).take 2) →
      leDecode ((t.drop 14).take 2) ≠ ta.tokenSerialNumber →
      Authenticate ta t now = .error .ErrMalformed) ∧
    (∀ t : List Nat, ¬ t.length < 48 → ¬ LevelRoot < leDecode ((t.drop 12).take 2) →
      leDecode ((t.drop 14).take 2) = ta.tokenSerialNumber →
      t.drop 16 ≠ ta.mac (t.take 16) →
      Authenticate ta t now = .error .ErrFailed) ∧
    (∀ t : List Nat, ¬ t.length < 48 → ¬ LevelRoot < leDecode ((t.drop 12).take 2) →
      leDecode ((t.drop 14).take 2) = ta.tokenSerialNumber →
      t.drop 16 = ta.mac (t.take 16) →
      leDecode ((t.drop 8).take 4) < now + 1 →
      Authenticate ta t now = .error .ErrExpired) := by
  refine ⟨⟨?_, genToken_length ta uid authLvl _ hmac32, ?_⟩, ?_, ?_, ?_, ?_, ?_⟩
  · have h0 : ¬ lifetime < 0 := by omega
    have h1 : ¬ lifetime = 0 := by omega
    simp [GenSecret, genToken, h0, h1]
  · have hlen : ¬ (genToken ta uid authLvl (now + lifetime.toNat)).length < 48 := by
      rw [genToken_length ta uid authLvl _ hmac32]; omega
    rw [Authenticate, if_neg hlen]
    rw [genToken_take8, genToken_lvlSeg, genToken_serSeg, genToken_take16,
      genToken_drop16, genToken_expSeg]
    rw [leDecode_leBytes, leDecode_leBytes, leDecode_leBytes, leDecode_leBytes]
    have e8 : uid % 256 ^ 8 = uid := Nat.mod_eq_of_lt (by norm_num at huid ⊢; omega)
    have e2 : authLvl % 256 ^ 2 = authLvl :=
      Nat.mod_eq_of_lt (by simp [LevelRoot] at hlvl; omega)
    have es : ta.tokenSerialNumber % 256 ^ 2 = ta.tokenSerialNumber :=
      Nat.mod_eq_of_lt (by norm_num at hser ⊢; omega)
    have ee : (now + lifetime.toNat) % 256 ^ 4 = now + lifetime.toNat :=
      Nat.mod_eq_of_lt (by norm_num at hexp ⊢; omega)
    rw [e8, e2, es, ee]
    have hnl : ¬ authLvl > LevelRoot := by omega
    have hne : ¬ (now + lifetime.toNat < now + 1) := by omega
    simp [hnl, hne]
  · intro t ht
    simp only [Authenticate]
    rw [if_pos ht]
  · intro t ht hl
    simp only [Authenticate]
    rw [if_neg ht, if_pos hl]
  · intro t ht hl hs
    simp only [Authenticate]
    rw [if_neg ht, if_neg hl, if_pos hs]
  · intro t ht hl hs hm
    simp only [Authenticate]
    rw [if_neg ht, if_neg hl, if_neg (show ¬ _ ≠ ta.tokenSerialNumber from fun h => h hs),
      if_pos hm]
  · intro t ht hl hs hm he
    simp only [Authenticate]
    rw [if_neg ht, if_neg hl, if_neg (show ¬ _ ≠ ta.tokenSerialNumber from fun h => h hs),
      if_neg (show ¬ _ ≠ ta.mac (t.take 16) from fun h => h hm), if_pos he]
end Tinode.Token

namespace Tinode.Token
/-- Closed witness for the token codec theorem at a concrete instance. -/
theorem token_codec_spec_witness :
    GenSecret ta0 5 2 3600 1000 = .ok (genToken ta0 5 2 4600, 4600) ∧
      (genToken ta0 5 2 4600).length = 48 ∧
      Authenticate ta0 (genToken ta0 5 2 4600) 1000 = .ok (5, 2, 4600) ∧
      Authenticate ta0 [1, 2, 3] 1000 = .error .ErrMalformed := by
  have h := token_codec_spec ta0 5 2 3600 1000
    (fun m => by simp [ta0]) (by norm_num) (by norm_num [LevelRoot])
    (by norm_num [ta0]) (by norm_num) (by decide)
  refine ⟨?_, ?_, ?_, h.2.1 [1, 2, 3] (by simp)⟩
  · have := h.1.1; simpa using this
  · have := h.1.2.1; simpa using this
  · have := h.1.2.2; simpa using this
end Tinode.Token

namespace Tinode
theorem toList_usr : "usr".toList = ['u', 's', 'r'] := rfl
end Tinode

namespace Tinode
theorem hasPre_usr_not_grp (t : String) (h : strHasPre "usr" t = true) :
    strHasPre "grp" t = false := by
  unfold strHasPre at h ⊢
  rw [toList_usr] at h
  rw [show "grp".toList = ['g', 'r', 'p'] from rfl]
  cases hl : t.toList with
  | nil => rw [hl] at h; simp [hasPre] at h
  | cons c cs =>
    rw [hl] at h
    simp [hasPre] at h ⊢
    intro hc
    rw [← hc] at h
    simp at h
end Tinode

namespace Tinode
theorem hasPre_usr_ne_me (t : String) (h : strHasPre "usr" t = true) : t ≠ "me" := by
  intro he; rw [he] at h; simp [strHasPre, hasPre] at h
end Tinode

namespace Tinode
theorem hasPre_usr_ne_fnd (t : String) (h : strHasPre "usr" t = true) : t ≠ "fnd" := by
  intro he; rw [he] at h; simp [strHasPre, hasPre] at h
end Tinode

namespace Tinode
theorem hasPre_usr_ne_empty (t : String) (h : strHasPre "usr" t = true) : t ≠ "" := by
  intro he; rw [he] at h; simp [strHasPre, hasPre] at h
end Tinode

namespace Tinode
/-- C9: `validateTopicName` is a total function of the session state and
the supplied name (hence deterministic); an empty name yields the 400
`malformed` ctrl; any name without the `grp` prefix offered by an
unauthenticated session yields the 401 `authentication required` ctrl; a
`usr` name that does not parse to a valid (nonzero) user id yields 400; a
`usr` name naming the session's own user yields the 403 ctrl; `me`, `fnd`
and a valid foreign `usrX` expand without error to the canonical per-user
(`usr<uid>`, `fnd<uid>`) or p2p routable name. -/
theorem validateTopicName_spec (s : SessionSt) (msgId topic : String) :
    (validateTopicName s msgId "" = .error (ErrMalformed msgId "") ∧
      (ErrMalformed msgId "").code = 400) ∧
    (topic ≠ "" → strHasPre "grp" topic = false → s.uid = 0 →
      validateTopicName s msgId topic = .error (ErrAuthRequired msgId topic) ∧
      (ErrAuthRequired msgId topic).code = 401) ∧
    (s.uid ≠ 0 → strHasPre "usr" topic = true → ParseUserId topic = 0 →
      validateTopicName s msgId topic = .error (ErrMalformed msgId topic)) ∧
    (s.uid ≠ 0 → strHasPre "usr" topic = true → ParseUserId topic = s.uid →
      validateTopicName s msgId topic = .error (ErrPermissionDenied msgId topic) ∧
      (ErrPermissionDenied msgId topic).code = 403) ∧
    (s.uid ≠ 0 → validateTopicName s msgId "me" = .ok (UserId s.uid)) ∧
    (s.uid ≠ 0 → validateTopicName s msgId "fnd" = .ok (FndName s.uid)) ∧
    (s.uid ≠ 0 → strHasPre "usr" topic = true → ParseUserId topic ≠ 0 →
      ParseUserId topic ≠ s.uid →
      validateTopicName s msgId topic = .ok (P2PName s.uid (ParseUserId topic))) := by
  refine ⟨⟨by simp [validateTopicName], rfl⟩, ?_, ?_, ?_, ?_, ?_, ?_⟩
  · intro hne hgrp huid
    refine ⟨?_, rfl⟩
    unfold validateTopicName
    rw [if_neg hne, if_pos (by simp [hgrp, huid])]
  · intro huid husr hparse
    unfold validateTopicName
    rw [if_neg (hasPre_usr_ne_empty topic husr), if_neg (by simp [huid]),
      if_neg (hasPre_usr_ne_me topic husr), if_neg (hasPre_usr_ne_fnd topic husr),
      if_pos husr]
    simp [hparse]
  · intro huid husr hparse
    refine ⟨?_, rfl⟩
    unfold validateTopicName
    rw [if_neg (hasPre_usr_ne_empty topic husr), if_neg (by simp [huid]),
      if_neg (hasPre_usr_ne_me topic husr), if_neg (hasPre_usr_ne_fnd topic husr),
      if_pos husr]
    simp [hparse, huid]
  · intro huid
    unfold validateTopicName
    rw [if_neg (by decide), if_neg (by simp [huid]), if_pos rfl]
  · intro huid
    unfold validateTopicName
    rw [if_neg (by decide), if_neg (by simp [huid]), if_neg (by decide), if_pos rfl]
  · intro huid husr hnz hnself
    unfold validateTopicName
    rw [if_neg (hasPre_usr_ne_empty topic husr), if_neg (by simp [huid]),
      if_neg (hasPre_usr_ne_me topic husr), if_neg (hasPre_usr_ne_fnd topic husr),
      if_pos husr]
    simp [hnz, hnself]
end Tinode

namespace Tinode
/-- Closed witness for the `validateTopicName` theorem: an authenticated
session resolving a foreign `usr` name, `me`, and the error cases. -/
theorem validateTopicName_spec_witness :
    validateTopicName ⟨1, "s1", 16, []⟩ "id" "" = .error (ErrMalformed "id" "") ∧
    validateTopicName ⟨0, "s1", 0, []⟩ "id" "me" = .error (ErrAuthRequired "id" "me") ∧
    validateTopicName ⟨1, "s1", 16, []⟩ "id" "me" = .ok (UserId 1) ∧
    validateTopicName ⟨1, "s1", 16, []⟩ "id" (UserId 2) = .ok (P2PName 1 2) ∧
    validateTopicName ⟨1, "s1", 16, []⟩ "id" (UserId 1) =
      .error (ErrPermissionDenied "id" (UserId 1)) := by
  have h1 := (validateTopicName_spec ⟨1, "s1", 16, []⟩ "id" "").1.1
  have h2 := ((validateTopicName_spec ⟨0, "s1", 0, []⟩ "id" "me").2.1
    (by decide) (by decide) rfl).1
  have h3 := (validateTopicName_spec ⟨1, "s1", 16, []⟩ "id" "me").2.2.2.2.1 (by decide)
  have h4 := (validateTopicName_spec ⟨1, "s1", 16, []⟩ "id" (UserId 2)).2.2.2.2.2.2
    (by decide) (by decide) (by decide) (by decide)
  have h5 := ((validateTopicName_spec ⟨1, "s1", 16, []⟩ "id" (UserId 1)).2.2.2.1
    (by decide) (by decide) (by decide)).1
  exact ⟨h1, h2, h3, by simpa using h4, h5⟩
end Tinode

namespace Tinode
/-- C8 (amended): outcomes of `Session.leave` on a single node.  Leaving a
topic the session is not attached to without `unsub` yields the 304 `not
joined` ctrl; leaving with `unsub` a topic the session never joined yields
the 409 `must attach first` ctrl; `unsub` from `me` or `fnd` while
attached is refused with the 403 `permission denied` ctrl (the code
reuses `ErrPermissionDenied`, not the 405 ctrl); a plain leave of an
attached topic — `me` and `fnd` included — detaches it and forwards the
leave into the topic mailbox. -/
theorem sessionLeave_spec (s : SessionSt) (id topic : String) (unsub : Bool)
    (expanded : String) (hver : s.ver ≠ 0)
    (hval : validateTopicName s id topic = .ok expanded) :
    (expanded ∉ s.subs → unsub = false →
      sessionLeave s (fun _ => false) id topic unsub =
        (s, .toSession (InfoNotJoined id topic)) ∧
      (InfoNotJoined id topic).code = 304) ∧
    (expanded ∉ s.subs → unsub = true →
      sessionLeave s (fun _ => false) id topic unsub =
        (s, .toSession (ErrAttachFirst id topic)) ∧
      (ErrAttachFirst id topic).code = 409) ∧
    (expanded ∈ s.subs → (topic = "me" ∨ topic = "fnd") → unsub = true →
      sessionLeave s (fun _ => false) id topic unsub =
        (s, .toSession (ErrPermissionDenied id topic)) ∧
      (ErrPermissionDenied id topic).code = 403) ∧
    (expanded ∈ s.subs → ((topic = "me" ∨ topic = "fnd") → unsub = false) →
      sessionLeave s (fun _ => false) id topic unsub =
        ({ s with subs := s.subs.filter (· ≠ expanded) },
          .toTopic expanded unsub topic id)) := by
  refine ⟨?_, ?_, ?_, ?_⟩
  · intro hc hu
    refine ⟨?_, rfl⟩
    unfold sessionLeave
    rw [if_neg hver, hval]
    simp [hc, hu]
  · intro hc hu
    refine ⟨?_, rfl⟩
    unfold sessionLeave
    rw [if_neg hver, hval]
    simp [hc, hu]
  · intro hc hmf hu
    refine ⟨?_, rfl⟩
    unfold sessionLeave
    rw [if_neg hver, hval]
    simp [hc, hu, hmf]
  · intro hc hnu
    unfold sessionLeave
    rw [if_neg hver, hval]
    by_cases hmf : topic = "me" ∨ topic = "fnd"
    · have hu : unsub = false := hnu hmf
      simp [hc, hu]
    · simp [hc, hmf]
end Tinode

namespace Tinode
/-- Closed witness for the `Session.leave` theorem: a session attached only
to its own `me` topic. -/
theorem sessionLeave_spec_witness :
    sessionLeave ⟨1, "s1", 16, [UserId 1]⟩ (fun _ => false) "id1" "me" false =
      ({ uid := 1, sid := "s1", ver := 16,
          subs := [UserId 1].filter (· ≠ UserId 1) },
        .toTopic (UserId 1) false "me" "id1") ∧
    sessionLeave ⟨1, "s1", 16, []⟩ (fun _ => false) "id1" "grpAbc" false =
      (⟨1, "s1", 16, []⟩, .toSession (InfoNotJoined "id1" "grpAbc")) ∧
    sessionLeave ⟨1, "s1", 16, []⟩ (fun _ => false) "id1" "grpAbc" true =
      (⟨1, "s1", 16, []⟩, .toSession (ErrAttachFirst "id1" "grpAbc")) := by
  have h1 := (sessionLeave_spec ⟨1, "s1", 16, [UserId 1]⟩ "id1" "me" false (UserId 1)
    (by decide) rfl).2.2.2 (by decide) (fun _ => rfl)
  have h2 := ((sessionLeave_spec ⟨1, "s1", 16, []⟩ "id1" "grpAbc" false "grpAbc"
    (by decide) rfl).1 (by decide) rfl).1
  have h3 := ((sessionLeave_spec ⟨1, "s1", 16, []⟩ "id1" "grpAbc" true "grpAbc"
    (by decide) rfl).2.1 (by decide) rfl).1
  exact ⟨h1, h2, h3⟩
end Tinode

namespace Tinode
/-- C8 counterexample: with a session attached to `me`, a leave with
`unsub=true` is answered by the 403 `permission denied` ctrl, not by the
405 ctrl the claim names. -/
theorem sessionLeave_counterexample :
    (sessionLeave ⟨1, "s1", 16, [UserId 1]⟩ (fun _ => false) "id1" "me" true).2 =
      .toSession (ErrPermissionDenied "id1" "me") ∧
    (ErrPermissionDenied "id1" "me").code = 403 ∧
    ((ErrPermissionDenied "id1" "me").code = 405 → False) := by
  decide
end Tinode

namespace Tinode
/-- C10: `Session.note` never queues any ctrl back to the originating
session; a note before `hi` (version 0), a note whose topic fails
validation, an invalid `what`, a `kp` note with nonzero seq, a
`read`/`recv` note with seq ≤ 0, and a note to a local topic the session
is not attached to are all silently discarded; a valid note to an
attached topic is forwarded into that topic's broadcast mailbox carrying
the sender's user id and `skipSid` equal to the sender's session id. -/
theorem sessionNote_spec (s : SessionSt) (remote : String → Bool)
    (topic what : String) (seqId : Int) :
    (sessionNote s remote topic what seqId).1 = [] ∧
    (s.ver = 0 → (sessionNote s remote topic what seqId).2 = .silent) ∧
    (∀ c, validateTopicName s "" topic = .error c →
      (sessionNote s remote topic what seqId).2 = .silent) ∧
    (what ≠ "kp" → what ≠ "read" → what ≠ "recv" →
      (sessionNote s remote topic what seqId).2 = .silent) ∧
    (what = "kp" → seqId ≠ 0 →
      (sessionNote s remote topic what seqId).2 = .silent) ∧
    ((what = "read" ∨ what = "recv") → seqId ≤ 0 →
      (sessionNote s remote topic what seqId).2 = .silent) ∧
    (∀ expanded, s.ver ≠ 0 → validateTopicName s "" topic = .ok expanded →
      ((what = "kp" ∧ seqId = 0) ∨ ((what = "read" ∨ what = "recv") ∧ 0 < seqId)) →
      expanded ∈ s.subs →
      (sessionNote s remote topic what seqId).2 =
        .toTopic expanded what seqId (UserId s.uid) s.sid) ∧
    (∀ expanded, validateTopicName s "" topic = .ok expanded →
      expanded ∉ s.subs → remote expanded = false →
      (sessionNote s remote topic what seqId).2 = .silent) := by
  refine ⟨?_, ?_, ?_, ?_, ?_, ?_, ?_, ?_⟩
  · unfold sessionNote
    by_cases hv : s.ver = 0
    · simp [hv]
    · rw [if_neg hv]
      cases hval : validateTopicName s "" topic with
      | error c => simp
      | ok expanded =>
        simp only []
        by_cases hskip : (if what = "kp" then seqId ≠ 0
            else if what = "read" ∨ what = "recv" then seqId ≤ 0 else True)
        · rw [if_pos hskip]
        · rw [if_neg hskip]
          by_cases hmem : expanded ∈ s.subs
          · simp [hmem]
          · by_cases hrem : remote expanded = true
            · simp [hmem, hrem]
            · simp [hmem, hrem]
  · intro hv; unfold sessionNote; simp [hv]
  · intro c hval
    unfold sessionNote
    by_cases hv : s.ver = 0
    · simp [hv]
    · rw [if_neg hv]; simp only [hval]
  · intro h1 h2 h3
    unfold sessionNote
    by_cases hv : s.ver = 0
    · simp [hv]
    · rw [if_neg hv]
      cases hval : validateTopicName s "" topic with
      | error c => simp only []
      | ok expanded =>
        simp only []
        rw [if_pos (by simp [h1, h2, h3])]
  · intro h1 h2
    unfold sessionNote
    by_cases hv : s.ver = 0
    · simp [hv]
    · rw [if_neg hv]
      cases hval : validateTopicName s "" topic with
      | error c => simp only []
      | ok expanded =>
        simp only []
        rw [if_pos (by simp [h1, h2])]
  · intro h1 h2
    unfold sessionNote
    by_cases hv : s.ver = 0
    · simp [hv]
    · rw [if_neg hv]
      cases hval : validateTopicName s "" topic with
      | error c => simp only []
      | ok expanded =>
        simp only []
        rcases h1 with h | h
        · rw [if_pos (by simp [h, h2])]
        · have hkp : what ≠ "kp" := by rw [h]; decide
          rw [if_pos (by simp [h, hkp, h2])]
  · intro expanded hv hval hok hmem
    unfold sessionNote
    rw [if_neg hv]
    simp only [hval]
    have hskip : ¬ (if what = "kp" then seqId ≠ 0
        else if what = "read" ∨ what = "recv" then seqId ≤ 0 else True) := by
      rcases hok with ⟨hw, hs⟩ | ⟨hw, hs⟩
      · simp [hw, hs]
      · have hkp : what ≠ "kp" := by
          rcases hw with h | h <;> rw [h] <;> decide
        simp [hkp, hw]
        omega
    rw [if_neg hskip]
    simp [hmem]
  · intro expanded hval hmem hrem
    unfold sessionNote
    by_cases hv : s.ver = 0
    · simp [hv]
    · rw [if_neg hv]
      simp only [hval]
      by_cases hskip : (if what = "kp" then seqId ≠ 0
          else if what = "read" ∨ what = "recv" then seqId ≤ 0 else True)
      · rw [if_pos hskip]
      · rw [if_neg hskip]
        simp [hmem, hrem]
end Tinode

namespace Tinode
/-- Closed witness for the `Session.note` theorem: a valid `read` note from
a session attached to its `me` topic is forwarded with the sender's session
id as the skip id, and a `kp` note with nonzero seq is dropped. -/
theorem sessionNote_spec_witness :
    sessionNote ⟨1, "s1", 16, [UserId 1]⟩ (fun _ => false) "me" "read" 3 =
      ([], .toTopic (UserId 1) "read" 3 (UserId 1) "s1") ∧
    sessionNote ⟨1, "s1", 16, [UserId 1]⟩ (fun _ => false) "me" "kp" 2 =
      ([], .silent) := by
  have h := sessionNote_spec ⟨1, "s1", 16, [UserId 1]⟩ (fun _ => false) "me" "read" 3
  have h2 := sessionNote_spec ⟨1, "s1", 16, [UserId 1]⟩ (fun _ => false) "me" "kp" 2
  refine ⟨?_, ?_⟩
  · have ha := h.1
    have hb := h.2.2.2.2.2.2.1 (UserId 1) (by decide) rfl
      (Or.inr ⟨Or.inl rfl, by decide⟩) (by decide)
    cases he : sessionNote ⟨1, "s1", 16, [UserId 1]⟩ (fun _ => false) "me" "read" 3 with
    | mk a b =>
      rw [he] at ha hb
      simp at ha hb
      rw [ha, hb]
  · have ha := h2.1
    have hb := h2.2.2.2.2.1 rfl (by decide)
    cases he : sessionNote ⟨1, "s1", 16, [UserId 1]⟩ (fun _ => false) "me" "kp" 2 with
    | mk a b =>
      rw [he] at ha hb
      simp at ha hb
      rw [ha, hb]
end Tinode

namespace Tinode
theorem mem_fanOut (l : List SessionRef) (skip : Option String) (sr : SessionRef) :
    sr ∈ fanOut l skip ↔ sr ∈ l ∧ some sr.sid ≠ skip := by
  unfold fanOut
  rw [List.mem_filter]
  cases skip with
  | none => simp
  | some sid => simp [bne_iff_ne]
end Tinode

namespace Tinode
/-- C1 (amended): for a client-originated data message processed by the
broadcast loop with the store available: if the sender's effective mode
(`want & given`) lacks the W bit, the sender receives the 403 `permission
denied` ctrl and the topic state, storage and fan-out are untouched;
otherwise the message is persisted with `SeqId = lastId + 1`, `lastId` is
incremented by exactly one (no other topic field changes), the sender is
acknowledged with the 202 `accepted` ctrl carrying `seq = lastId` *only
when the message carries a client request id*, the `msg` presence event is
emitted, and the message is fanned out to every attached session except
the one matching the skip id — regardless of the receivers' P bit. -/
theorem runData_spec (t : TopicState) (msg : DataIn) (s : SessionRef)
    (hfrom : msg.sessFrom = some s) :
    ((getPud t.perUser msg.fromUid).modeWant &&&
        (getPud t.perUser msg.fromUid).modeGiven &&& ModePub = 0 →
      runData t msg true = ⟨t, [ErrPermissionDenied msg.id t.original], [], [], []⟩ ∧
      (ErrPermissionDenied msg.id t.original).code = 403) ∧
    ((getPud t.perUser msg.fromUid).modeWant &&&
        (getPud t.perUser msg.fromUid).modeGiven &&& ModePub ≠ 0 →
      runData t msg true =
        ⟨{ t with lastId := t.lastId + 1 },
          (if msg.id ≠ "" then
            [{ NoErrAccepted msg.id t.original with seqParam := some (t.lastId + 1) }]
          else []),
          [.messageSave t.name (t.lastId + 1) msg.fromUid],
          [.presMessageSent (t.lastId + 1)],
          fanOut t.sessions msg.sessSkip⟩ ∧
      (NoErrAccepted msg.id t.original).code = 202 ∧
      (∀ sr, sr ∈ (runData t msg true).delivered ↔
        sr ∈ t.sessions ∧ some sr.sid ≠ msg.sessSkip)) := by
  constructor
  · intro h
    refine ⟨?_, rfl⟩
    unfold runData
    rw [if_pos (by simp [hfrom, h])]
  · intro h
    have hmain : runData t msg true =
        ⟨{ t with lastId := t.lastId + 1 },
          (if msg.id ≠ "" then
            [{ NoErrAccepted msg.id t.original with seqParam := some (t.lastId + 1) }]
          else []),
          [.messageSave t.name (t.lastId + 1) msg.fromUid],
          [.presMessageSent (t.lastId + 1)],
          fanOut t.sessions msg.sessSkip⟩ := by
      unfold runData
      rw [if_neg (by simp [hfrom, h])]
      rfl
    refine ⟨hmain, rfl, ?_⟩
    intro sr
    rw [hmain]
    exact mem_fanOut t.sessions msg.sessSkip sr
end Tinode

namespace Tinode
/-- Closed witness for the data-broadcast theorem: a publish with a
request id is persisted with seq 8, acknowledged with 202 `seq=8`, and
fanned out to the one session not matching the skip id. -/
theorem runData_spec_witness :
    runData topicC1 ⟨1, some ⟨"sA", 1, ""⟩, "m1", some "sA"⟩ true =
      ⟨{ topicC1 with lastId := 8 },
        [{ NoErrAccepted "m1" "grpTest" with seqParam := some 8 }],
        [.messageSave "grpTest" 8 1],
        [.presMessageSent 8],
        [⟨"sB", 2, ""⟩]⟩ := by
  have h := ((runData_spec topicC1 ⟨1, some ⟨"sA", 1, ""⟩, "m1", some "sA"⟩
    ⟨"sA", 1, ""⟩ rfl).2 (by decide)).1
  rw [h]
  decide
end Tinode

namespace Tinode
/-- C1 counterexample: on a publish with an empty request id from a
sender holding W, the session of user 2 — whose effective mode lacks the
P bit — still receives the fan-out, and no 202 acknowledgement is queued
to the sender; the claim as stated predicts the opposite on both
counts. -/
theorem runData_counterexample :
    (⟨"sB", 2, ""⟩ : SessionRef) ∈
      (runData topicC1 ⟨1, some ⟨"sA", 1, ""⟩, "", some "sA"⟩ true).delivered ∧
    (getPud topicC1.perUser 2).modeWant &&& (getPud topicC1.perUser 2).modeGiven &&&
      ModePres = 0 ∧
    (runData topicC1 ⟨1, some ⟨"sA", 1, ""⟩, "", some "sA"⟩ true).toSender = [] ∧
    (runData topicC1 ⟨1, some ⟨"sA", 1, ""⟩, "", some "sA"⟩ true).state.lastId = 8 := by
  decide
end Tinode

namespace Tinode
theorem lookupPud_setPud (l : List (Uid × PerUserData)) (u : Uid)
    (p : PerUserData) : lookupPud (setPud l u p) u = some p := by
  induction l with
  | nil => simp [setPud, lookupPud]
  | cons e rest ih =>
    by_cases he : e.1 = u
    · simp [setPud, lookupPud, he]
    · simp [setPud, lookupPud, he, ih]
end Tinode

namespace Tinode
theorem lookupPud_setPud_ne (l : List (Uid × PerUserData)) (u v : Uid)
    (p : PerUserData) (hne : v ≠ u) :
    lookupPud (setPud l u p) v = lookupPud l v := by
  have huv : ¬ u = v := fun h => hne h.symm
  induction l with
  | nil => simp [setPud, lookupPud, huv]
  | cons e rest ih =>
    by_cases he : e.1 = u
    · simp [setPud, lookupPud, he, huv]
    · by_cases hev : e.1 = v
      · simp [setPud, lookupPud, he, hev, fun h : v = u => hne h]
      · simp [setPud, lookupPud, he, hev, ih]
end Tinode

namespace Tinode
theorem getPud_setPud (l : List (Uid × PerUserData)) (u : Uid) (p : PerUserData) :
    getPud (setPud l u p) u = p := by
  simp [getPud, lookupPud_setPud]
end Tinode

namespace Tinode
theorem getPud_setPud_ne (l : List (Uid × PerUserData)) (u v : Uid)
    (p : PerUserData) (hne : v ≠ u) :
    getPud (setPud l u p) v = getPud l v := by
  simp [getPud, lookupPud_setPud_ne l u v p hne]
end Tinode

namespace Tinode
theorem pudKeys_setPud (l : List (Uid × PerUserData)) (u : Uid) (p : PerUserData)
    (h : u ∈ pudKeys l) : pudKeys (setPud l u p) = pudKeys l := by
  induction l with
  | nil => simp [pudKeys] at h
  | cons e rest ih =>
    by_cases he : e.1 = u
    · simp [setPud, pudKeys, he]
    · have h' : u ∈ pudKeys rest := by
        simp [pudKeys] at h ⊢
        rcases h with h | h
        · exact absurd h.symm he
        · exact h
      have hr := ih h'
      simp only [pudKeys] at hr
      simp only [setPud, pudKeys, if_neg he, List.map_cons, hr]
end Tinode

namespace Tinode
theorem pudKeys_setPud_not_mem (l : List (Uid × PerUserData)) (u : Uid)
    (p : PerUserData) (h : u ∉ pudKeys l) :
    pudKeys (setPud l u p) = pudKeys l ++ [u] := by
  induction l with
  | nil => simp [setPud, pudKeys]
  | cons e rest ih =>
    have he : ¬ e.1 = u := by
      intro hh; exact h (by simp [pudKeys, hh])
    have h' : u ∉ pudKeys rest := by
      intro hh; exact h (by simp [pudKeys] at hh ⊢; exact Or.inr hh)
    have hr := ih h'
    simp only [pudKeys] at hr
    simp only [setPud, pudKeys, if_neg he, List.map_cons, List.cons_append, hr]
end Tinode

namespace Tinode
theorem nodup_keys_setPud (l : List (Uid × PerUserData)) (u : Uid)
    (p : PerUserData) (h : (pudKeys l).Nodup) :
    (pudKeys (setPud l u p)).Nodup := by
  by_cases hm : u ∈ pudKeys l
  · rw [pudKeys_setPud l u p hm]; exact h
  · rw [pudKeys_setPud_not_mem l u p hm]
    simp [List.nodup_append, h, hm]
end Tinode

namespace Tinode
theorem mem_keys_of_mem {l : List (Uid × PerUserData)} {e : Uid × PerUserData}
    (h : e ∈ l) : e.1 ∈ pudKeys l :=
  List.mem_map_of_mem (fun x => x.1) h
end Tinode

namespace Tinode
theorem mem_setPud {l : List (Uid × PerUserData)} {u : Uid} {p : PerUserData}
    {e : Uid × PerUserData} (hnd : (pudKeys l).Nodup) (he : e ∈ setPud l u p) :
    e = (u, p) ∨ (e ∈ l ∧ e.1 ≠ u) := by
  induction l with
  | nil => simp [setPud] at he; exact Or.inl (by simp [he])
  | cons f rest ih =>
    have hnd2 := hnd
    rw [show pudKeys (f :: rest) = f.1 :: pudKeys rest from rfl,
      List.nodup_cons] at hnd2
    obtain ⟨hnotin, hnd'⟩ := hnd2
    by_cases hf : f.1 = u
    · simp [setPud, hf] at he
      rcases he with he | he
      · exact Or.inl (by simp [he])
      · refine Or.inr ⟨by simp [he], ?_⟩
        intro heu
        exact hnotin (hf ▸ heu ▸ mem_keys_of_mem he)
    · simp only [setPud, if_neg hf, List.mem_cons] at he
      rcases he with he | he
      · exact Or.inr ⟨by simp [he], by rw [he]; exact hf⟩
      · rcases ih hnd' he with h | ⟨h1, h2⟩
        · exact Or.inl h
        · exact Or.inr ⟨by simp [h1], h2⟩
end Tinode

namespace Tinode
theorem runInfo_applied (t : TopicState) (i : InfoIn) (h : infoApplies t i) :
    (runInfo t i true).state =
      { t with perUser := setPud t.perUser i.fromUid (infoPud2 t i) } := by
  obtain ⟨h1, h2, h3⟩ := h
  simp only [runInfo]
  rw [if_neg h1, if_pos h2, if_neg h3]
  simp [infoPud2, infoPud1]
end Tinode

namespace Tinode
theorem runInfo_not_applied (t : TopicState) (i : InfoIn) (h : ¬ infoApplies t i) :
    (runInfo t i true).state = t := by
  unfold infoApplies at h
  simp only [runInfo]
  by_cases h1 : i.seqId > t.lastId
  · rw [if_pos h1]
  · rw [if_neg h1]
    by_cases h2 : i.what = "read" ∨ i.what = "recv"
    · rw [if_pos h2]
      have h3 : (i.what = "read" ∧ i.seqId ≤ (getPud t.perUser i.fromUid).readId) ∨
          (¬ i.what = "read" ∧ i.seqId ≤ (getPud t.perUser i.fromUid).recvId) := by
        by_contra hc
        exact h ⟨h1, h2, hc⟩
      rw [if_pos h3]
    · rw [if_neg h2]
end Tinode

namespace Tinode
theorem infoPud2_fields (t : TopicState) (i : InfoIn) (h : infoApplies t i) :
    (infoPud2 t i).clearId = (getPud t.perUser i.fromUid).clearId ∧
    (getPud t.perUser i.fromUid).readId ≤ (infoPud2 t i).readId ∧
    (getPud t.perUser i.fromUid).recvId ≤ (infoPud2 t i).recvId ∧
    (infoPud2 t i).readId ≤ (infoPud2 t i).recvId ∧
    (infoPud2 t i).online = (getPud t.perUser i.fromUid).online ∧
    (infoPud2 t i).modeWant = (getPud t.perUser i.fromUid).modeWant ∧
    (infoPud2 t i).modeGiven = (getPud t.perUser i.fromUid).modeGiven := by
  obtain ⟨h1, h2, h3⟩ := h
  push_neg at h3
  simp only [not_lt] at h1
  unfold infoPud2 infoPud1
  split_ifs with hw hfix hfix <;> simp_all <;> omega
end Tinode

namespace Tinode
theorem infoPud2_bounds (t : TopicState) (i : InfoIn) (h : infoApplies t i)
    (hrr : (getPud t.perUser i.fromUid).readId ≤ (getPud t.perUser i.fromUid).recvId)
    (hrl : (getPud t.perUser i.fromUid).recvId ≤ t.lastId) :
    (infoPud2 t i).readId ≤ t.lastId ∧ (infoPud2 t i).recvId ≤ t.lastId := by
  obtain ⟨h1, h2, h3⟩ := h
  push_neg at h3
  simp only [not_lt] at h1
  unfold infoPud2 infoPud1
  split_ifs with hw hfix hfix <;> simp_all <;> omega
end Tinode

namespace Tinode
theorem replyDelMsg_reject (t : TopicState) (uid : Uid) (del : DelIn)
    (storeOk : Bool)
    (h : del.before > t.lastId ∨ (del.before ≤ 0 ∧ ¬ del.hasList)) :
    replyDelMsg t uid del storeOk =
      ⟨t, [ErrMalformed del.id t.original], [], [], true⟩ := by
  unfold replyDelMsg
  rw [if_pos h]
end Tinode

namespace Tinode
theorem replyDelMsg_noaction (t : TopicState) (uid : Uid) (del : DelIn)
    (storeOk : Bool)
    (hv : ¬ (del.before > t.lastId ∨ (del.before ≤ 0 ∧ ¬ del.hasList)))
    (h : del.before > 0 ∧ (del.before ≤ t.clearId ∨
      (¬ effectiveHard t uid del = true ∧
        del.before ≤ (getPud t.perUser uid).clearId))) :
    replyDelMsg t uid del storeOk =
      ⟨t, [InfoNoAction del.id t.original], [], [], false⟩ := by
  unfold replyDelMsg
  rw [if_neg hv]
  unfold effectiveHard at h
  rw [if_pos h]
end Tinode

namespace Tinode
theorem replyDelMsg_hard (t : TopicState) (uid : Uid) (del : DelIn)
    (hv : ¬ (del.before > t.lastId ∨ (del.before ≤ 0 ∧ ¬ del.hasList)))
    (hna : ¬ (del.before > 0 ∧ (del.before ≤ t.clearId ∨
      (¬ effectiveHard t uid del = true ∧
        del.before ≤ (getPud t.perUser uid).clearId))))
    (hh : effectiveHard t uid del = true) :
    replyDelMsg t uid del true =
      ⟨{ t with clearId := del.before }, [NoErr del.id t.original],
        (if del.before > 0 then
          [.messagesDelete (if t.cat = .me then "" else t.name) uid true del.before]
        else []),
        [.presMessageDel del.before], false⟩ := by
  unfold replyDelMsg
  rw [if_neg hv]
  unfold effectiveHard at hna hh
  rw [if_neg hna, if_neg (by simp), if_pos hh]
  rw [hh]
end Tinode

namespace Tinode
theorem replyDelMsg_soft (t : TopicState) (uid : Uid) (del : DelIn)
    (hv : ¬ (del.before > t.lastId ∨ (del.before ≤ 0 ∧ ¬ del.hasList)))
    (hna : ¬ (del.before > 0 ∧ (del.before ≤ t.clearId ∨
      (¬ effectiveHard t uid del = true ∧
        del.before ≤ (getPud t.perUser uid).clearId))))
    (hh : effectiveHard t uid del = false) :
    replyDelMsg t uid del true =
      ⟨{ t with perUser := setPud t.perUser uid (delPud3 t uid del) },
        [NoErr del.id t.original],
        (if del.before > 0 then
          [.messagesDelete (if t.cat = .me then "" else t.name) uid false del.before]
        else []),
        [.presMessageCount (delPud3 t uid del).clearId 0 0], false⟩ := by
  unfold replyDelMsg
  rw [if_neg hv]
  unfold effectiveHard at hna hh
  rw [if_neg hna, if_neg (by simp), if_neg (by rw [hh]; simp)]
  rw [hh]
  unfold delPud3
  rfl
end Tinode

namespace Tinode
/-- C3 (amended): after any `{info}` note the chain `0 ≤ t.clearId ≤
pud.clearId ≤ pud.readId ≤ pud.recvId ≤ t.lastId` is preserved for the
affected user; info messages with `SeqId > lastId` are ignored; the
read/recv counters never decrease; `recvId ≥ readId` is re-established
whenever state changes.  After a `del.msg` with a positive watermark:
the soft path (no D bit or `hard=false`) preserves the full chain; the
hard path keeps `0 ≤ t.clearId ≤ t.lastId` and leaves every per-user
record unchanged — so `t.clearId ≤ pud.clearId` can be violated, which
the read-side compensates by reporting `max(pud.clearId, t.clearId)`. -/
theorem chain_spec (t : TopicState) (i : InfoIn) (uid : Uid) (del : DelIn)
    (hdel : 0 < del.before) :
    (t.lastId < i.seqId → runInfo t i true = ⟨t, [], [], []⟩) ∧
    ((getPud t.perUser i.fromUid).readId ≤
        (getPud (runInfo t i true).state.perUser i.fromUid).readId ∧
      (getPud t.perUser i.fromUid).recvId ≤
        (getPud (runInfo t i true).state.perUser i.fromUid).recvId) ∧
    ((runInfo t i true).state = t ∨
      (getPud (runInfo t i true).state.perUser i.fromUid).readId ≤
        (getPud (runInfo t i true).state.perUser i.fromUid).recvId) ∧
    (chainOk t i.fromUid → chainOk (runInfo t i true).state i.fromUid) ∧
    (chainOk t uid → effectiveHard t uid del = false →
      chainOk (replyDelMsg t uid del true).state uid) ∧
    (chainOk t uid → effectiveHard t uid del = true →
      0 ≤ (replyDelMsg t uid del true).state.clearId ∧
      (replyDelMsg t uid del true).state.clearId ≤
        (replyDelMsg t uid del true).state.lastId ∧
      (replyDelMsg t uid del true).state.perUser = t.perUser) := by
  refine ⟨?_, ?_, ?_, ?_, ?_, ?_⟩
  · intro h
    unfold runInfo
    rw [if_pos (show i.seqId > t.lastId from h)]
  · by_cases ha : infoApplies t i
    · rw [runInfo_applied t i ha]
      simp only [getPud_setPud]
      obtain ⟨_, h2, h3, _⟩ := infoPud2_fields t i ha
      exact ⟨h2, h3⟩
    · rw [runInfo_not_applied t i ha]
      exact ⟨le_refl _, le_refl _⟩
  · by_cases ha : infoApplies t i
    · right
      rw [runInfo_applied t i ha]
      simp only [getPud_setPud]
      exact (infoPud2_fields t i ha).2.2.2.1
    · left
      have h := runInfo_not_applied t i ha
      cases hr : runInfo t i true with
      | mk st ops routes delivered =>
        rw [hr] at h
        simp at h
        simp [h]
  · intro hc
    by_cases ha : infoApplies t i
    · rw [runInfo_applied t i ha]
      obtain ⟨hcl, hrd, hrc, hrr, _⟩ := infoPud2_fields t i ha
      obtain ⟨hb1, hb2⟩ := infoPud2_bounds t i ha hc.2.2.2.1 hc.2.2.2.2
      unfold chainOk at hc ⊢
      simp only [getPud_setPud]
      obtain ⟨c1, c2, c3, c4, c5⟩ := hc
      exact ⟨c1, by omega, by omega, hrr, hb2⟩
    · rw [runInfo_not_applied t i ha]
      exact hc
  · intro hc hh
    by_cases hv : del.before > t.lastId ∨ (del.before ≤ 0 ∧ ¬ del.hasList)
    · rw [replyDelMsg_reject t uid del true hv]
      exact hc
    · by_cases hna : del.before > 0 ∧ (del.before ≤ t.clearId ∨
          (¬ effectiveHard t uid del = true ∧
            del.before ≤ (getPud t.perUser uid).clearId))
      · rw [replyDelMsg_noaction t uid del true hv hna]
        exact hc
      · rw [replyDelMsg_soft t uid del hv hna hh]
        unfold chainOk at hc ⊢
        simp only [getPud_setPud]
        obtain ⟨c1, c2, c3, c4, c5⟩ := hc
        have hble : ¬ del.before > t.lastId := fun h => hv (Or.inl h)
        have hbc : ¬ del.before ≤ t.clearId := by
          intro h
          exact hna ⟨hdel, Or.inl h⟩
        have hbp : ¬ del.before ≤ (getPud t.perUser uid).clearId := by
          intro h
          exact hna ⟨hdel, Or.inr ⟨by simp [hh], h⟩⟩
        simp only [delPud3]
        simp only [apply_ite PerUserData.clearId, apply_ite PerUserData.readId,
          apply_ite PerUserData.recvId]
        split_ifs <;> simp_all <;> omega
  · intro hc hh
    by_cases hv : del.before > t.lastId ∨ (del.before ≤ 0 ∧ ¬ del.hasList)
    · rw [replyDelMsg_reject t uid del true hv]
      obtain ⟨c1, c2, c3, c4, c5⟩ := hc
      exact ⟨c1, by dsimp only; omega, rfl⟩
    · by_cases hna : del.before > 0 ∧ (del.before ≤ t.clearId ∨
          (¬ effectiveHard t uid del = true ∧
            del.before ≤ (getPud t.perUser uid).clearId))
      · rw [replyDelMsg_noaction t uid del true hv hna]
        obtain ⟨c1, c2, c3, c4, c5⟩ := hc
        exact ⟨c1, by dsimp only; omega, rfl⟩
      · rw [replyDelMsg_hard t uid del hv hna hh]
        have hble : ¬ del.before > t.lastId := fun h => hv (Or.inl h)
        exact ⟨by dsimp only; omega, by dsimp only; omega, rfl⟩
end Tinode

namespace Tinode
/-- Closed witness for the chain theorem: the chain holds initially, after
a `read` note with seq 5, and after a soft delete with `before = 5`. -/
theorem chain_spec_witness :
    chainOk topicDel 1 ∧
    chainOk (runInfo topicDel ⟨1, "read", 5, none⟩ true).state 1 ∧
    chainOk (replyDelMsg topicDel 1 ⟨"d1", 5, false, false⟩ true).state 1 := by
  have h := chain_spec topicDel ⟨1, "read", 5, none⟩ 1 ⟨"d1", 5, false, false⟩
    (by decide)
  exact ⟨by decide, h.2.2.2.1 (by decide), h.2.2.2.2.1 (by decide) (by decide)⟩
end Tinode

namespace Tinode
/-- C3 counterexample: a hard delete with `before = 5` by a user holding D
leaves `pud.clearId = 0` while setting `t.clearId = 5`, so the claimed
chain `t.clearId ≤ pud.clearId` fails after this `del.msg` even though it
held before. -/
theorem chain_counterexample :
    chainOk topicDel 1 ∧
    (replyDelMsg topicDel 1 ⟨"d1", 5, false, true⟩ true).state.clearId = 5 ∧
    (getPud (replyDelMsg topicDel 1 ⟨"d1", 5, false, true⟩ true).state.perUser
      1).clearId = 0 ∧
    ¬ chainOk (replyDelMsg topicDel 1 ⟨"d1", 5, false, true⟩ true).state 1 := by
  decide
end Tinode

namespace Tinode
/-- C4 (amended): only a requester whose effective mode contains D can
cause a hard delete (without it the request is silently demoted to soft);
a soft delete touches only the requester's cached `clearId`, `readId` and
`recvId` — raising the read/receive watermarks to the cleared id — and no
topic-wide field, no other user's record, and emits no `{pres what=del}`;
a hard delete sets the topic-wide `clearId` and emits
`{pres what=del}`. -/
theorem delMsg_frame (t : TopicState) (uid : Uid) (del : DelIn)
    (hdel : 0 < del.before) :
    ((getPud t.perUser uid).modeGiven &&& (getPud t.perUser uid).modeWant &&&
        ModeDelete = 0 → effectiveHard t uid del = false) ∧
    (∀ top u b, StoreOp.messagesDelete top u true b ∈
        (replyDelMsg t uid del true).ops →
      (getPud t.perUser uid).modeGiven &&& (getPud t.perUser uid).modeWant &&&
        ModeDelete ≠ 0 ∧ del.hard = true) ∧
    (effectiveHard t uid del = false →
      (replyDelMsg t uid del true).state.clearId = t.clearId ∧
      (replyDelMsg t uid del true).state.lastId = t.lastId ∧
      (replyDelMsg t uid del true).state.owner = t.owner ∧
      (∀ v, v ≠ uid → getPud (replyDelMsg t uid del true).state.perUser v =
        getPud t.perUser v) ∧
      (getPud (replyDelMsg t uid del true).state.perUser uid).priv =
        (getPud t.perUser uid).priv ∧
      (getPud (replyDelMsg t uid del true).state.perUser uid).modeWant =
        (getPud t.perUser uid).modeWant ∧
      (getPud (replyDelMsg t uid del true).state.perUser uid).modeGiven =
        (getPud t.perUser uid).modeGiven ∧
      (getPud (replyDelMsg t uid del true).state.perUser uid).online =
        (getPud t.perUser uid).online ∧
      (∀ c, Route.presMessageDel c ∉ (replyDelMsg t uid del true).routes)) ∧
    (effectiveHard t uid del = true →
      ¬ (del.before > t.lastId ∨ (del.before ≤ 0 ∧ ¬ del.hasList)) →
      ¬ (del.before > 0 ∧ (del.before ≤ t.clearId ∨
        (¬ effectiveHard t uid del = true ∧
          del.before ≤ (getPud t.perUser uid).clearId))) →
      (replyDelMsg t uid del true).state = { t with clearId := del.before } ∧
      Route.presMessageDel del.before ∈ (replyDelMsg t uid del true).routes) := by
  have hEH : effectiveHard t uid del = true →
      (getPud t.perUser uid).modeGiven &&& (getPud t.perUser uid).modeWant &&&
        ModeDelete ≠ 0 ∧ del.hard = true := by
    unfold effectiveHard
    split_ifs with h
    · intro hc; exact absurd hc (by simp)
    · intro hh; exact ⟨by simpa using h, hh⟩
  refine ⟨?_, ?_, ?_, ?_⟩
  · intro h
    unfold effectiveHard
    rw [if_pos (by simpa using h)]
  · intro top u b hmem
    by_cases hv : del.before > t.lastId ∨ (del.before ≤ 0 ∧ ¬ del.hasList)
    · rw [replyDelMsg_reject t uid del true hv] at hmem
      simp at hmem
    · by_cases hna : del.before > 0 ∧ (del.before ≤ t.clearId ∨
          (¬ effectiveHard t uid del = true ∧
            del.before ≤ (getPud t.perUser uid).clearId))
      · rw [replyDelMsg_noaction t uid del true hv hna] at hmem
        simp at hmem
      · by_cases hh : effectiveHard t uid del = true
        · exact hEH hh
        · rw [replyDelMsg_soft t uid del hv hna (by simpa using hh)] at hmem
          dsimp only at hmem
          rw [apply_ite (StoreOp.messagesDelete top u true b ∈ ·)] at hmem
          split_ifs at hmem <;> simp at hmem
  · intro hh
    by_cases hv : del.before > t.lastId ∨ (del.before ≤ 0 ∧ ¬ del.hasList)
    · rw [replyDelMsg_reject t uid del true hv]
      refine ⟨rfl, rfl, rfl, fun v _ => rfl, rfl, rfl, rfl, rfl, fun c => by simp⟩
    · by_cases hna : del.before > 0 ∧ (del.before ≤ t.clearId ∨
          (¬ effectiveHard t uid del = true ∧
            del.before ≤ (getPud t.perUser uid).clearId))
      · rw [replyDelMsg_noaction t uid del true hv hna]
        refine ⟨rfl, rfl, rfl, fun v _ => rfl, rfl, rfl, rfl, rfl, fun c => by simp⟩
      · rw [replyDelMsg_soft t uid del hv hna hh]
        refine ⟨rfl, rfl, rfl, fun v hvne => ?_, ?_, ?_, ?_, ?_, fun c => ?_⟩
        · exact getPud_setPud_ne t.perUser uid v _ hvne
        · dsimp only
          rw [getPud_setPud]
          simp only [delPud3]
          split_ifs <;> rfl
        · dsimp only
          rw [getPud_setPud]
          simp only [delPud3]
          split_ifs <;> rfl
        · dsimp only
          rw [getPud_setPud]
          simp only [delPud3]
          split_ifs <;> rfl
        · dsimp only
          rw [getPud_setPud]
          simp only [delPud3]
          split_ifs <;> rfl
        · simp
  · intro hh hv hna
    rw [replyDelMsg_hard t uid del hv hna hh]
    exact ⟨rfl, by simp⟩
end Tinode

namespace Tinode
/-- Closed witness for the delete frame theorem: hard and soft deletes on
the concrete topic. -/
theorem delMsg_frame_witness :
    (replyDelMsg topicDel 1 ⟨"d1", 5, false, true⟩ true).state =
      { topicDel with clearId := 5 } ∧
    Route.presMessageDel 5 ∈ (replyDelMsg topicDel 1 ⟨"d1", 5, false, true⟩
      true).routes ∧
    (getPud (replyDelMsg topicDel 1 ⟨"d1", 5, false, false⟩
      true).state.perUser 1).modeWant = (getPud topicDel.perUser 1).modeWant := by
  have h := delMsg_frame topicDel 1 ⟨"d1", 5, false, true⟩ (by decide)
  have h2 := delMsg_frame topicDel 1 ⟨"d1", 5, false, false⟩ (by decide)
  obtain ⟨ha, hb⟩ := h.2.2.2 (by decide) (by decide) (by decide)
  exact ⟨ha, hb, (h2.2.2.1 (by decide)).2.2.2.2.2.1⟩
end Tinode

namespace Tinode
/-- C4 counterexample: a soft delete with `before = 5` raises the
requester's `readId` from 2 to 5 (and `recvId` from 3 to 5), so it does
not modify *only* `pud.clearId`. -/
theorem delMsg_counterexample :
    (getPud topicDel.perUser 1).readId = 2 ∧
    (getPud (replyDelMsg topicDel 1 ⟨"d1", 5, false, false⟩
      true).state.perUser 1).readId = 5 ∧
    (getPud (replyDelMsg topicDel 1 ⟨"d1", 5, false, false⟩
      true).state.perUser 1).recvId = 5 := by
  decide
end Tinode

namespace Tinode
/-- C7: evaluation of `approveSub` at the failing input.  The owner
(user 1) grants mode `RWPSD` to user 2.  The topic's in-memory per-user
state records the new given mode for the *target* (user 2), but the
subscription update is persisted for `sess.uid` — user 1, the manager —
because `topic.go:871` passes `sess.uid` instead of `target` to
`store.Subs.Update`; the stored subscription of user 2 keeps its old
given mode.  The entry check passes because the caller is a manager. -/
theorem approveSub_eval :
    (getPud (approveSub topicC7 ⟨"s1", 1, ""⟩ 2 "id1" "RWPSD" true).state.perUser
      2).modeGiven = ModeManager ∧
    (approveSub topicC7 ⟨"s1", 1, ""⟩ 2 "id1" "RWPSD" true).ops =
      [.subsUpdateGiven "grpApr" 1 ModeManager] ∧
    (∀ w g p, StoreOp.subsCreate "grpApr" 2 w g p ∉
      (approveSub topicC7 ⟨"s1", 1, ""⟩ 2 "id1" "RWPSD" true).ops) ∧
    (∀ w g, StoreOp.subsUpdateMode "grpApr" 2 w g ∉
      (approveSub topicC7 ⟨"s1", 1, ""⟩ 2 "id1" "RWPSD" true).ops) ∧
    (approveSub topicC7 ⟨"s1", 1, ""⟩ 2 "id1" "RWPSD" true).err = false := by
  have hops : (approveSub topicC7 ⟨"s1", 1, ""⟩ 2 "id1" "RWPSD" true).ops =
      [.subsUpdateGiven "grpApr" 1 ModeManager] := by decide
  refine ⟨by decide, hops, ?_, ?_, by decide⟩
  · intro w g p
    rw [hops]
    simp
  · intro w g
    rw [hops]
    simp
end Tinode

namespace Tinode
theorem and_32_eq (m : Nat) : m &&& 32 = 32 * (m / 32 % 2) := by
  have h := Nat.and_two_pow m 5
  rw [Nat.testBit_to_div_mod] at h
  norm_num at h
  rw [h]
  by_cases hb : m / 32 % 2 = 1
  · simp [hb]
  · have hb0 : m / 32 % 2 = 0 := by omega
    simp [hb0]
end Tinode

namespace Tinode
theorem and_64_eq (m : Nat) : m &&& 64 = 64 * (m / 64 % 2) := by
  have h := Nat.and_two_pow m 6
  rw [Nat.testBit_to_div_mod] at h
  norm_num at h
  rw [h]
  by_cases hb : m / 64 % 2 = 1
  · simp [hb]
  · have hb0 : m / 64 % 2 = 0 := by omega
    simp [hb0]
end Tinode

namespace Tinode
theorem isOwner_eq_div (m : Nat) : isOwner m = decide (m / 32 % 2 = 1) := by
  unfold isOwner ModeOwner
  rw [and_32_eq]
  by_cases hb : m / 32 % 2 = 1
  · simp [hb]
  · have hb0 : m / 32 % 2 = 0 := by omega
    simp [hb0, hb]
end Tinode

namespace Tinode
theorem isBanned_eq_div (m : Nat) : isBanned m = decide (m / 64 % 2 = 1) := by
  unfold isBanned ModeBanned
  rw [and_64_eq]
  by_cases hb : m / 64 % 2 = 1
  · simp [hb]
  · have hb0 : m / 64 % 2 = 0 := by omega
    simp [hb0, hb]
end Tinode

namespace Tinode
theorem isOwner_or (a b : Nat) : isOwner (a ||| b) = (isOwner a || isOwner b) := by
  have ha := Nat.and_two_pow (a ||| b) 5
  unfold isOwner ModeOwner
  rw [show (32 : Nat) = 2 ^ 5 from rfl, Nat.and_two_pow, Nat.and_two_pow,
    Nat.and_two_pow, Nat.testBit_lor]
  cases h1 : a.testBit 5 <;> cases h2 : b.testBit 5 <;> simp
end Tinode

namespace Tinode
theorem isOwner_andNot_owner (m : Nat) : isOwner (andNot m ModeOwner) = false := by
  rw [isOwner_eq_div]
  unfold andNot ModeOwner
  rw [and_32_eq]
  simp only [decide_eq_false_iff_not]
  omega
end Tinode

namespace Tinode
theorem isBanned_andNot_owner (m : Nat) :
    isBanned (andNot m ModeOwner) = isBanned m := by
  rw [isBanned_eq_div, isBanned_eq_div]
  unfold andNot ModeOwner
  rw [and_32_eq]
  by_cases hb : m / 64 % 2 = 1 <;> simp [hb] <;> omega
end Tinode

namespace Tinode
theorem isOwner_andNot_banned (m : Nat) :
    isOwner (andNot m ModeBanned) = isOwner m := by
  rw [isOwner_eq_div, isOwner_eq_div]
  unfold andNot ModeBanned
  rw [and_64_eq]
  by_cases hb : m / 32 % 2 = 1 <;> simp [hb] <;> omega
end Tinode

namespace Tinode
theorem lookup_mem {l : List (Uid × PerUserData)} {u : Uid} {p : PerUserData}
    (h : lookupPud l u = some p) : (u, p) ∈ l := by
  induction l with
  | nil => simp [lookupPud] at h
  | cons e rest ih =>
    by_cases he : e.1 = u
    · simp [lookupPud, he] at h
      have hep : e = (u, p) := by
        obtain ⟨a, b⟩ := e
        simp at he h
        simp [he, h]
      rw [← hep]
      exact List.mem_cons_self e rest
    · simp [lookupPud, he] at h
      exact List.mem_cons_of_mem e (ih h)
end Tinode

namespace Tinode
theorem requestSub_existing_unfold (t : TopicState) (sess : SessionRef)
    (pktId want : String) (priv otherPublic : Payload) (loaded : Bool)
    (dbOk : Bool) (ud : PerUserData)
    (hsub : lookupPud t.perUser sess.uid = some ud) :
    requestSub t sess pktId want priv loaded otherPublic dbOk =
      (match requestSubExisting t sess.uid pktId ud (parsedWant want)
          (decide (want ≠ "")) dbOk with
       | .error cs => ⟨t, cs, [], [], [], true⟩
       | .ok core => requestSubTail t core sess pktId loaded) := by
  unfold requestSub parsedWant
  simp only [hsub]
end Tinode

namespace Tinode
theorem resolvedWant_eq (ud : PerUserData) (want : String) :
    (if ¬ (decide (want ≠ "") = true) ∧ parsedWant want = ModeNone then ud.modeWant
     else parsedWant want) = resolvedWant ud want := by
  unfold resolvedWant
  by_cases h : want ≠ "" <;> simp [h]
end Tinode

namespace Tinode
theorem isOwner_ne_zero {m : AccessMode} (h : isOwner m = true) : m ≠ ModeNone := by
  intro he
  rw [he] at h
  exact absurd h (by decide)
end Tinode

namespace Tinode
theorem isOwner_congr {a b : AccessMode} (h : isOwner a ≠ isOwner b) : a ≠ b := by
  intro he; rw [he] at h; exact h rfl
end Tinode

namespace Tinode
theorem requestSubTail_shape (t0 : TopicState) (core : SubCore) (sess : SessionRef)
    (pktId : String) (loaded : Bool) :
    (requestSubTail t0 core sess pktId loaded).ops = core.ops ∧
    (requestSubTail t0 core sess pktId loaded).state.owner = core.state.owner ∧
    (∀ v,
      ((getPud (requestSubTail t0 core sess pktId loaded).state.perUser v).modeWant =
        (getPud (setPud core.state.perUser sess.uid core.userData) v).modeWant ∧
       (getPud (requestSubTail t0 core sess pktId loaded).state.perUser v).modeGiven =
        (getPud (setPud core.state.perUser sess.uid core.userData) v).modeGiven)) := by
  unfold requestSubTail
  split_ifs with h1 h2
  · unfold evictUser
    refine ⟨rfl, rfl, fun v => ?_⟩
    dsimp only
    rw [if_neg Bool.false_ne_true]
    by_cases hv : v = sess.uid
    · subst hv
      rw [getPud_setPud, getPud_setPud]
      exact ⟨rfl, rfl⟩
    · rw [getPud_setPud_ne _ _ _ _ hv, getPud_setPud_ne _ _ _ _ hv]
      exact ⟨rfl, rfl⟩
  all_goals exact ⟨rfl, rfl, fun v => ⟨rfl, rfl⟩⟩
end Tinode

namespace Tinode
theorem atMostOne_setPud_noOwner {l : List (Uid × PerUserData)} {u : Uid}
    {p : PerUserData} (hnd : (pudKeys l).Nodup)
    (hinv : atMostOneGivenOwner l) (hp : isOwner p.modeGiven = false) :
    atMostOneGivenOwner (setPud l u p) := by
  intro e1 h1 e2 h2 ho1 ho2
  rcases mem_setPud hnd h1 with he1 | ⟨he1, hne1⟩
  · rw [he1] at ho1
    simp only at ho1
    rw [hp] at ho1
    exact absurd ho1 (by simp)
  · rcases mem_setPud hnd h2 with he2 | ⟨he2, hne2⟩
    · rw [he2] at ho2
      simp only at ho2
      rw [hp] at ho2
      exact absurd ho2 (by simp)
    · exact hinv e1 he1 e2 he2 ho1 ho2
end Tinode

namespace Tinode
theorem atMostOne_setPud_ownerAt {l : List (Uid × PerUserData)} {u : Uid}
    {p : PerUserData} {ud : PerUserData} (hnd : (pudKeys l).Nodup)
    (hinv : atMostOneGivenOwner l) (hud : lookupPud l u = some ud)
    (ho : isOwner ud.modeGiven = true) :
    atMostOneGivenOwner (setPud l u p) := by
  have hmem : (u, ud) ∈ l := lookup_mem hud
  intro e1 h1 e2 h2 ho1 ho2
  rcases mem_setPud hnd h1 with he1 | ⟨he1, hne1⟩
  · rcases mem_setPud hnd h2 with he2 | ⟨he2, hne2⟩
    · rw [he1, he2]
    · have := hinv (u, ud) hmem e2 he2 ho ho2
      rw [he1]
      exact this
  · rcases mem_setPud hnd h2 with he2 | ⟨he2, hne2⟩
    · have := hinv e1 he1 (u, ud) hmem ho1 ho
      rw [he2]
      exact this
    · exact hinv e1 he1 e2 he2 ho1 ho2
end Tinode

namespace Tinode
theorem atMostOne_setPud_sameGiven {l : List (Uid × PerUserData)} {u : Uid}
    {p : PerUserData} (hnd : (pudKeys l).Nodup)
    (hinv : atMostOneGivenOwner l) (hp : p.modeGiven = (getPud l u).modeGiven) :
    atMostOneGivenOwner (setPud l u p) := by
  by_cases ho : isOwner p.modeGiven = true
  · cases hl : lookupPud l u with
    | none =>
      rw [hp] at ho
      unfold getPud at ho
      rw [hl] at ho
      exact absurd ho (by decide)
    | some ud =>
      refine atMostOne_setPud_ownerAt hnd hinv hl ?_
      rw [hp] at ho
      unfold getPud at ho
      rw [hl] at ho
      exact ho
  · exact atMostOne_setPud_noOwner hnd hinv (by simpa using ho)
end Tinode

namespace Tinode
theorem requestSubExistingRest_ok_given {t : TopicState} {sessUid : Uid}
    {pktId : String} {ud1 : PerUserData} {mw1 : AccessMode} {ug oc dbOk : Bool}
    {core : SubCore}
    (h : requestSubExistingRest t sessUid pktId ud1 mw1 ug oc dbOk = .ok core)
    (hacc : isOwner t.accessAuth = false)
    (ho : isOwner core.userData.modeGiven = true) :
    isOwner ud1.modeGiven = true := by
  simp only [requestSubExistingRest] at h
  split_ifs at h
  all_goals first
    | exact Except.noConfusion h
    | (simp only [Except.ok.injEq] at h
       subst h
       try dsimp only at ho
       first
         | (rw [isOwner_andNot_owner] at ho; exact Bool.noConfusion ho)
         | (rw [hacc] at ho; exact Bool.noConfusion ho)
         | exact ho)
end Tinode

namespace Tinode
theorem requestSubExisting_ok_given {t : TopicState} {sessUid : Uid}
    {pktId : String} {ud : PerUserData} {m0 : AccessMode} {ew dbOk : Bool}
    {core : SubCore}
    (h : requestSubExisting t sessUid pktId ud m0 ew dbOk = .ok core)
    (hacc : isOwner t.accessAuth = false)
    (ho : isOwner core.userData.modeGiven = true) :
    isOwner ud.modeGiven = true := by
  simp only [requestSubExisting] at h
  split_ifs at h
  all_goals first
    | assumption
    | exact Except.noConfusion h
    | (have hg := requestSubExistingRest_ok_given h hacc ho
       first
         | exact hg
         | (try dsimp only at hg
            rw [isOwner_or, isOwner_andNot_banned] at hg
            simp only [Bool.or_eq_true] at hg
            rcases hg with hg | hg
            · exact hg
            · exact absurd hg (by assumption)))
end Tinode

namespace Tinode
theorem requestSubNew_ok {t : TopicState} {sessUid : Uid} {pktId : String}
    {m0 : AccessMode} {ew : Bool} {priv otherPublic : Payload} {dbOk : Bool}
    {core : SubCore}
    (h : requestSubNew t sessUid pktId m0 ew priv otherPublic dbOk = .ok core) :
    core.state = t ∧ core.userData.modeGiven = t.accessAuth := by
  simp only [requestSubNew] at h
  split_ifs at h
  all_goals first
    | exact Except.noConfusion h
    | (simp only [Except.ok.injEq] at h
       subst h
       exact ⟨rfl, rfl⟩)
end Tinode

namespace Tinode
theorem requestSubExistingRest_ok_state {t : TopicState} {sessUid : Uid}
    {pktId : String} {ud1 : PerUserData} {mw1 : AccessMode} {ug oc dbOk : Bool}
    {core : SubCore}
    (h : requestSubExistingRest t sessUid pktId ud1 mw1 ug oc dbOk = .ok core) :
    core.state = t ∨
      (core.state = { t with perUser := setPud t.perUser t.owner (stripPrev t), owner := sessUid } ∧ core.userData = stripPrev t) := by
  simp only [requestSubExistingRest] at h
  split_ifs at h
  all_goals first
    | exact Except.noConfusion h
    | (simp only [Except.ok.injEq] at h
       subst h
       first
         | exact Or.inl rfl
         | exact Or.inr ⟨rfl, rfl⟩)
end Tinode

namespace Tinode
theorem requestSubExisting_ok_state {t : TopicState} {sessUid : Uid}
    {pktId : String} {ud : PerUserData} {m0 : AccessMode} {ew dbOk : Bool}
    {core : SubCore}
    (h : requestSubExisting t sessUid pktId ud m0 ew dbOk = .ok core) :
    core.state = t ∨
      (core.state = { t with perUser := setPud t.perUser t.owner (stripPrev t), owner := sessUid } ∧ core.userData = stripPrev t) := by
  simp only [requestSubExisting] at h
  split_ifs at h
  all_goals first
    | exact Except.noConfusion h
    | exact requestSubExistingRest_ok_state h
end Tinode

namespace Tinode
theorem requestSubTail_perUser (t0 : TopicState) (core : SubCore)
    (sess : SessionRef) (pktId : String) (loaded : Bool) :
    (requestSubTail t0 core sess pktId loaded).state.perUser =
      setPud core.state.perUser sess.uid core.userData ∨
    (requestSubTail t0 core sess pktId loaded).state.perUser =
      setPud (setPud core.state.perUser sess.uid core.userData) sess.uid
        { getPud (setPud core.state.perUser sess.uid core.userData) sess.uid with
            online := 0 } := by
  unfold requestSubTail
  split_ifs
  · right
    unfold evictUser
    dsimp only
    rw [if_neg Bool.false_ne_true]
  all_goals exact Or.inl rfl
end Tinode

namespace Tinode
theorem requestSubExisting_reject_self (t : TopicState) (sessUid : Uid)
    (pktId want : String) (ud : PerUserData) (dbOk : Bool)
    (hg : isOwner ud.modeGiven = true) (hown : t.owner = sessUid)
    (hbad : isOwner (resolvedWant ud want) = false ∨
      isBanned (resolvedWant ud want) = true) :
    requestSubExisting t sessUid pktId ud (parsedWant want)
        (decide (want ≠ "")) dbOk =
      .error [ErrMalformed pktId t.original] := by
  simp only [requestSubExisting]
  rw [resolvedWant_eq]
  have hbad' : ¬ isOwner (resolvedWant ud want) = true ∨
      isBanned (resolvedWant ud want) = true := by
    rcases hbad with h | h
    · exact Or.inl (by simp [h])
    · exact Or.inr h
  rw [if_pos hg, if_pos ⟨hown, hbad'⟩]
end Tinode

namespace Tinode
theorem requestSubExisting_reject_nonowner (t : TopicState) (sessUid : Uid)
    (pktId want : String) (ud : PerUserData) (dbOk : Bool)
    (hg : isOwner ud.modeGiven = false)
    (hro : isOwner (resolvedWant ud want) = true) :
    requestSubExisting t sessUid pktId ud (parsedWant want)
        (decide (want ≠ "")) dbOk =
      .error [ErrMalformed pktId t.original] := by
  simp only [requestSubExisting]
  rw [resolvedWant_eq]
  rw [if_neg (by simp [hg]), if_pos hro]
end Tinode

namespace Tinode
theorem requestSubExistingRest_transfer (t : TopicState) (sessUid : Uid)
    (pktId : String) (ud1 : PerUserData) (mw1 : AccessMode) (ug : Bool)
    (hnz : ud1.modeGiven ≠ ModeNone) (hmw : mw1 ≠ ModeNone)
    (hupd : ud1.modeWant ≠ mw1) :
    requestSubExistingRest t sessUid pktId ud1 mw1 ug true true =
      .ok ⟨{ t with perUser := setPud t.perUser t.owner (stripPrev t), owner := sessUid },
        stripPrev t, mw1, true,
        [.subsUpdateMode t.name sessUid (some mw1)
           (if ug then some ud1.modeGiven else none),
         .subsUpdateMode t.name t.owner (some (stripPrev t).modeWant)
           (some (stripPrev t).modeGiven)]⟩ := by
  have h1 : ¬ (ud1.modeGiven = ModeNone ∧ t.accessAuth ≠ ModeNone) :=
    fun hc => hnz hc.1
  have h2 : ud1.modeWant ≠ mw1 ∨ ug = true := Or.inl hupd
  have h3 : ¬ ((ud1.modeWant ≠ mw1 ∨ ug = true) ∧ ¬ (true = true)) :=
    fun hc => hc.2 rfl
  have h4 : true = true := rfl
  simp only [requestSubExistingRest, if_neg h1, if_neg hmw, if_pos hupd,
    if_pos h2, if_neg h3, if_pos h4]
  rw [if_neg (by simp), if_pos trivial]
  rfl
end Tinode

namespace Tinode
theorem requestSubExisting_transfer (t : TopicState) (sessUid : Uid)
    (pktId want : String) (ud : PerUserData)
    (hg : isOwner ud.modeGiven = true)
    (hro : isOwner (resolvedWant ud want) = true)
    (hX : isBanned (resolvedWant ud want) = false)
    (hnw : isOwner ud.modeWant = false) :
    requestSubExisting t sessUid pktId ud (parsedWant want)
        (decide (want ≠ "")) true =
      .ok ⟨{ t with perUser := setPud t.perUser t.owner (stripPrev t), owner := sessUid },
        stripPrev t, resolvedWant ud want, true,
        [.subsUpdateMode t.name sessUid (some (resolvedWant ud want))
           (if check ud.modeGiven (resolvedWant ud want) = true then none
            else some (ud.modeGiven ||| resolvedWant ud want)),
         .subsUpdateMode t.name t.owner (some (stripPrev t).modeWant)
           (some (stripPrev t).modeGiven)]⟩ := by
  have hmw : resolvedWant ud want ≠ ModeNone := isOwner_ne_zero hro
  have hupd : ud.modeWant ≠ resolvedWant ud want :=
    isOwner_congr (by rw [hnw, hro]; simp)
  simp only [requestSubExisting]
  rw [resolvedWant_eq]
  have hsc : ¬ (t.owner = sessUid ∧ (¬ isOwner (resolvedWant ud want) = true ∨
      isBanned (resolvedWant ud want) = true)) := by
    rintro ⟨-, hb | hb⟩
    · exact hb hro
    · rw [hX] at hb; exact Bool.noConfusion hb
  rw [if_pos hg, if_neg hsc]
  have hoc : decide (isOwner (resolvedWant ud want) = true ∧
      ¬ isOwner ud.modeWant = true) = true := by simp [hro, hnw]
  rw [hoc]
  by_cases hchk : check ud.modeGiven (resolvedWant ud want) = true
  · have hupP : ¬ (isOwner (resolvedWant ud want) = true ∧
        ¬ check ud.modeGiven (resolvedWant ud want) = true) := fun hc => hc.2 hchk
    have hupB : decide (isOwner (resolvedWant ud want) = true ∧
        ¬ check ud.modeGiven (resolvedWant ud want) = true) = false := by
      simp [hchk]
    rw [if_neg hupP, hupB]
    rw [requestSubExistingRest_transfer t sessUid pktId ud (resolvedWant ud want)
      false (isOwner_ne_zero hg) hmw hupd]
    rw [if_neg Bool.false_ne_true, if_pos hchk]
  · have hupP : isOwner (resolvedWant ud want) = true ∧
        ¬ check ud.modeGiven (resolvedWant ud want) = true := ⟨hro, hchk⟩
    have hupB : decide (isOwner (resolvedWant ud want) = true ∧
        ¬ check ud.modeGiven (resolvedWant ud want) = true) = true := by
      simp [hro, hchk]
    rw [if_pos hupP, hupB]
    have hnz2 : (ud.modeGiven ||| resolvedWant ud want) ≠ ModeNone :=
      isOwner_ne_zero (by rw [isOwner_or, hg]; simp)
    rw [requestSubExistingRest_transfer t sessUid pktId
      { ud with modeGiven := ud.modeGiven ||| resolvedWant ud want }
      (resolvedWant ud want) true hnz2 hmw hupd]
    rw [if_pos rfl, if_neg hchk]
end Tinode

namespace Tinode
theorem requestSub_new_unfold (t : TopicState) (sess : SessionRef)
    (pktId want : String) (priv otherPublic : Payload) (loaded : Bool)
    (dbOk : Bool)
    (hsub : lookupPud t.perUser sess.uid = none) :
    requestSub t sess pktId want priv loaded otherPublic dbOk =
      (match requestSubNew t sess.uid pktId (parsedWant want)
          (decide (want ≠ "")) priv otherPublic dbOk with
       | .error cs => ⟨t, cs, [], [], [], true⟩
       | .ok core => requestSubTail t core sess pktId loaded) := by
  unfold requestSub parsedWant
  simp only [hsub]
end Tinode

namespace Tinode
theorem tail_atMostOne {t0 : TopicState} {core : SubCore} {sess : SessionRef}
    {pktId : String} {loaded : Bool}
    (hnd1 : (pudKeys (setPud core.state.perUser sess.uid core.userData)).Nodup)
    (h1 : atMostOneGivenOwner (setPud core.state.perUser sess.uid core.userData)) :
    atMostOneGivenOwner (requestSubTail t0 core sess pktId loaded).state.perUser := by
  rcases requestSubTail_perUser t0 core sess pktId loaded with hP | hP
  · rw [hP]; exact h1
  · rw [hP]
    exact atMostOne_setPud_sameGiven hnd1 h1 rfl
end Tinode

namespace Tinode
/-- C2 (amended): ownership discipline of `requestSub`.  (1) While the
caller's stored given still contains O, the current owner's attempt to
drop O or to self-ban is rejected with `ErrMalformed` and the state
unchanged; (2) a caller whose stored given lacks O and whose resolved
want contains O is rejected the same way; (3) an ownership transfer
happens exactly when the stored given has O, the resolved want has O
(and is not a ban) and the stored want lacked O — the previous owner's
entry loses O from both want and given, `topic.owner` becomes the
caller, both mode updates are persisted, but the caller's own in-memory
entry is then overwritten with the *stripped previous-owner record*
(the source reuses the `userData` variable, topic.go:741 and 754), so
no in-memory entry retains O after a transfer; (4) `requestSub` never
creates a second given-O entry: when the topic's default auth mode
lacks O, at most one per-user entry with O in given is preserved. -/
theorem requestSub_spec (t : TopicState) (sess : SessionRef)
    (pktId want : String) (priv otherPublic : Payload) (loaded dbOk : Bool)
    (hnd : (pudKeys t.perUser).Nodup)
    (hinv : atMostOneGivenOwner t.perUser)
    (hacc : isOwner t.accessAuth = false) :
    (∀ ud, lookupPud t.perUser sess.uid = some ud →
      isOwner ud.modeGiven = true → t.owner = sess.uid →
      (isOwner (resolvedWant ud want) = false ∨
        isBanned (resolvedWant ud want) = true) →
      requestSub t sess pktId want priv loaded otherPublic dbOk =
        ⟨t, [ErrMalformed pktId t.original], [], [], [], true⟩) ∧
    (∀ ud, lookupPud t.perUser sess.uid = some ud →
      isOwner ud.modeGiven = false → isOwner (resolvedWant ud want) = true →
      requestSub t sess pktId want priv loaded otherPublic dbOk =
        ⟨t, [ErrMalformed pktId t.original], [], [], [], true⟩) ∧
    (∀ ud, lookupPud t.perUser sess.uid = some ud →
      isOwner ud.modeGiven = true → isOwner (resolvedWant ud want) = true →
      isBanned (resolvedWant ud want) = false → isOwner ud.modeWant = false →
      isBanned (getPud t.perUser t.owner).modeGiven = false →
      ((requestSub t sess pktId want priv loaded otherPublic true).state.owner = sess.uid ∧
       getPud (requestSub t sess pktId want priv loaded otherPublic true).state.perUser t.owner = stripPrev t ∧
       getPud (requestSub t sess pktId want priv loaded otherPublic true).state.perUser sess.uid = stripPrev t ∧
       (requestSub t sess pktId want priv loaded otherPublic true).ops =
         [.subsUpdateMode t.name sess.uid (some (resolvedWant ud want))
            (if check ud.modeGiven (resolvedWant ud want) = true then none
             else some (ud.modeGiven ||| resolvedWant ud want)),
          .subsUpdateMode t.name t.owner (some (stripPrev t).modeWant)
            (some (stripPrev t).modeGiven)] ∧
       (requestSub t sess pktId want priv loaded otherPublic true).err = false)) ∧
    atMostOneGivenOwner
      (requestSub t sess pktId want priv loaded otherPublic dbOk).state.perUser := by
  refine ⟨?_, ?_, ?_, ?_⟩
  · intro ud hsub hg hown hbad
    rw [requestSub_existing_unfold t sess pktId want priv otherPublic loaded dbOk ud hsub,
      requestSubExisting_reject_self t sess.uid pktId want ud dbOk hg hown hbad]
  · intro ud hsub hg hro
    rw [requestSub_existing_unfold t sess pktId want priv otherPublic loaded dbOk ud hsub,
      requestSubExisting_reject_nonowner t sess.uid pktId want ud dbOk hg hro]
  · intro ud hsub hg hro hX hnw hpb
    rw [requestSub_existing_unfold t sess pktId want priv otherPublic loaded true ud hsub,
      requestSubExisting_transfer t sess.uid pktId want ud hg hro hX hnw]
    have hb1 : ¬ (isBanned (resolvedWant ud want) = true) := by simp [hX]
    have hb2 : ¬ (isBanned (stripPrev t).modeGiven = true) := by
      simp [stripPrev, isBanned_andNot_owner, hpb]
    dsimp only
    simp only [requestSubTail, if_neg hb1, if_neg hb2]
    refine ⟨?_, ?_, ?_, ?_, ?_⟩
    · trivial
    · rcases eq_or_ne t.owner sess.uid with he | he
      · rw [he, getPud_setPud]
      · rw [getPud_setPud_ne _ _ _ _ he, getPud_setPud]
    · rw [getPud_setPud]
    · trivial
    · trivial
  · cases hsub : lookupPud t.perUser sess.uid with
    | none =>
      rw [requestSub_new_unfold t sess pktId want priv otherPublic loaded dbOk hsub]
      cases hb : requestSubNew t sess.uid pktId (parsedWant want)
          (decide (want ≠ "")) priv otherPublic dbOk with
      | error cs => exact hinv
      | ok core =>
        obtain ⟨hst, hgiven⟩ := requestSubNew_ok hb
        dsimp only
        refine tail_atMostOne ?_ ?_
        · rw [hst]; exact nodup_keys_setPud _ _ _ hnd
        · rw [hst]
          exact atMostOne_setPud_noOwner hnd hinv (by rw [hgiven]; exact hacc)
    | some ud =>
      rw [requestSub_existing_unfold t sess pktId want priv otherPublic loaded dbOk ud hsub]
      cases hb : requestSubExisting t sess.uid pktId ud (parsedWant want)
          (decide (want ≠ "")) dbOk with
      | error cs => exact hinv
      | ok core =>
        dsimp only
        rcases requestSubExisting_ok_state hb with hst | ⟨hst, hud2⟩
        · refine tail_atMostOne ?_ ?_
          · rw [hst]; exact nodup_keys_setPud _ _ _ hnd
          · rw [hst]
            by_cases how : isOwner core.userData.modeGiven = true
            · exact atMostOne_setPud_ownerAt hnd hinv hsub
                (requestSubExisting_ok_given hb hacc how)
            · exact atMostOne_setPud_noOwner hnd hinv (by simpa using how)
        · have hs0 : isOwner (stripPrev t).modeGiven = false := by
            simp [stripPrev, isOwner_andNot_owner]
          refine tail_atMostOne ?_ ?_
          · rw [hst]
            dsimp only
            exact nodup_keys_setPud _ _ _ (nodup_keys_setPud _ _ _ hnd)
          · rw [hst, hud2]
            dsimp only
            exact atMostOne_setPud_noOwner (nodup_keys_setPud _ _ _ hnd)
              (atMostOne_setPud_noOwner hnd hinv hs0) hs0
end Tinode

namespace Tinode
/-- C2 witness: the hypotheses hold at `topicC2` and the preserved
at-most-one-given-owner conclusion is obtained from the theorem. -/
theorem requestSub_spec_witness :
    (pudKeys topicC2.perUser).Nodup ∧ atMostOneGivenOwner topicC2.perUser ∧
    isOwner topicC2.accessAuth = false ∧
    atMostOneGivenOwner
      (requestSub topicC2 ⟨"sB", 2, ""⟩ "r1" "" none false none true).state.perUser :=
  ⟨by decide, by decide, by decide,
    (requestSub_spec topicC2 ⟨"sB", 2, ""⟩ "r1" "" none none false true
      (by decide) (by decide) (by decide)).2.2.2⟩
end Tinode

namespace Tinode
/-- C2 counterexample: the owner grants given `RWPSDO` to user 2 via
`approveSub` (state `s1`); user 2 accepts by requesting want `RWPSDO`,
triggering the ownership transfer (state `s2`).  In `s2` user 2 is the
owner but their own in-memory entry — clobbered with the stripped
previous-owner record — has O in neither want nor given; consequently a
follow-up self-ban (`want = "X"`) by the *current owner* is not
rejected: it changes the state (want becomes `ModeBanned`, the user is
evicted), contradicting the claim that the current owner can never
self-ban and that all rejections leave the state unchanged. -/
theorem requestSub_counterexample :
    (approveSub topicC2 ⟨"sA", 1, ""⟩ 2 "a1" "RWPSDO" true).state.owner = 1 ∧
    ((requestSub (approveSub topicC2 ⟨"sA", 1, ""⟩ 2 "a1" "RWPSDO" true).state
        ⟨"sB", 2, ""⟩ "r1" "RWPSDO" none false none true).state.owner = 2 ∧
      isOwner (getPud (requestSub (approveSub topicC2 ⟨"sA", 1, ""⟩ 2 "a1" "RWPSDO" true).state
        ⟨"sB", 2, ""⟩ "r1" "RWPSDO" none false none true).state.perUser 2).modeGiven = false ∧
      isOwner (getPud (requestSub (approveSub topicC2 ⟨"sA", 1, ""⟩ 2 "a1" "RWPSDO" true).state
        ⟨"sB", 2, ""⟩ "r1" "RWPSDO" none false none true).state.perUser 2).modeWant = false) ∧
    ((requestSub (requestSub (approveSub topicC2 ⟨"sA", 1, ""⟩ 2 "a1" "RWPSDO" true).state
        ⟨"sB", 2, ""⟩ "r1" "RWPSDO" none false none true).state
        ⟨"sB", 2, ""⟩ "r2" "X" none false none true).state.owner = 2 ∧
      (getPud (requestSub (requestSub (approveSub topicC2 ⟨"sA", 1, ""⟩ 2 "a1" "RWPSDO" true).state
        ⟨"sB", 2, ""⟩ "r1" "RWPSDO" none false none true).state
        ⟨"sB", 2, ""⟩ "r2" "X" none false none true).state.perUser 2).modeWant = ModeBanned) := by
  decide
end Tinode

namespace Tinode.Hub
theorem and_128_eq (m : Nat) : m &&& 128 = 128 * (m / 128 % 2) := by
  have h := Nat.and_two_pow m 7
  rw [Nat.testBit_to_div_mod] at h
  norm_num at h
  rw [h]
  by_cases hb : m / 128 % 2 = 1
  · simp [hb]
  · have hb0 : m / 128 % 2 = 0 := by omega
    simp [hb0]
end Tinode.Hub

namespace Tinode.Hub
theorem isOwner_eq_div128 (m : Nat) : isOwner m = decide (m / 128 % 2 = 1) := by
  unfold isOwner ModeOwner
  rw [and_128_eq]
  by_cases hb : m / 128 % 2 = 1
  · simp [hb]
  · have hb0 : m / 128 % 2 = 0 := by omega
    simp [hb0, hb]
end Tinode.Hub

namespace Tinode.Hub
theorem isOwner_andNot_owner128 (m : Nat) :
    isOwner (Tinode.andNot m ModeOwner) = false := by
  rw [isOwner_eq_div128]
  unfold Tinode.andNot ModeOwner
  rw [and_128_eq]
  simp only [decide_eq_false_iff_not]
  omega
end Tinode.Hub

namespace Tinode.Hub
theorem or_and_join (m : Nat) : (m ||| ModeJoin ||| ModeOwner) &&& ModeJoin = ModeJoin := by
  have h1 : (m ||| 1 ||| 128).testBit 0 = true := by
    rw [Nat.testBit_lor, Nat.testBit_lor]
    simp
  have h2 := Nat.and_one_is_mod (m ||| 1 ||| 128)
  rw [Nat.testBit_to_div_mod] at h1
  simp only [pow_zero, Nat.div_one, decide_eq_true_eq] at h1
  unfold ModeJoin ModeOwner
  rw [h2]
  exact h1
end Tinode.Hub

namespace Tinode.Hub
theorem isOwner128_or (a b : Nat) : isOwner (a ||| b) = (isOwner a || isOwner b) := by
  unfold isOwner ModeOwner
  rw [show (128 : Nat) = 2 ^ 7 from rfl, Nat.and_two_pow, Nat.and_two_pow,
    Nat.and_two_pow, Nat.testBit_lor]
  cases h1 : a.testBit 7 <;> cases h2 : b.testBit 7 <;> simp
end Tinode.Hub

namespace Tinode.Hub
/-- C6 (amended): the `new…` branch of `topicInit`.  With the store
write succeeding a topic is always created: the creator becomes its
owner, the owner's given mode is `ModeCFull` and so is the want
when no `set.sub.mode` was supplied; a supplied want mode keeps at
least the Join and Owner bits (`|= ModeJoin | ModeOwner`); the default
access is taken from the set block — but a default access containing
the O bit is *not rejected*: creation proceeds with the O bit stripped
from both defaults (hub.go: `auth & ^types.ModeOwner`).  A failed store
write creates nothing and reports the error. -/
theorem topicInitNew_spec (creator : Uid) (name : String)
    (defAuth defAnon : AccessMode) (acs : Option ParsedAcs)
    (subMode : Option AccessMode) (priv : Payload) :
    (∃ ts, topicInitNew creator name defAuth defAnon acs subMode priv true =
        (some ts, false) ∧
      ts.owner = creator ∧ ts.cat = .grp ∧
      (getPud ts.perUser creator).modeGiven = ModeCFull ∧
      (subMode = none → (getPud ts.perUser creator).modeWant = ModeCFull) ∧
      (∀ m, subMode = some m →
        (getPud ts.perUser creator).modeWant = (m ||| ModeJoin ||| ModeOwner) ∧
        (getPud ts.perUser creator).modeWant &&& ModeJoin = ModeJoin ∧
        isOwner (getPud ts.perUser creator).modeWant = true) ∧
      (∀ pa, acs = some pa → pa.err = false →
        (isOwner pa.auth = true ∨ isOwner pa.anon = true) →
        ts.accessAuth = Tinode.andNot pa.auth ModeOwner ∧
        ts.accessAnon = Tinode.andNot pa.anon ModeOwner ∧
        isOwner ts.accessAuth = false ∧ isOwner ts.accessAnon = false) ∧
      (∀ pa, acs = some pa → pa.err = false →
        isOwner pa.auth = false → isOwner pa.anon = false →
        ts.accessAuth = pa.auth ∧ ts.accessAnon = pa.anon) ∧
      (acs = none → ts.accessAuth = defAuth ∧ ts.accessAnon = defAnon)) ∧
    topicInitNew creator name defAuth defAnon acs subMode priv false = (none, true) := by
  constructor
  · refine ⟨_, rfl, rfl, rfl, ?_, ?_, ?_, ?_, ?_, ?_⟩
    · simp [getPud, lookupPud]
    · intro h; subst h; simp [getPud, lookupPud]
    · intro m hm; subst hm
      refine ⟨?_, ?_, ?_⟩
      · simp [getPud, lookupPud]
      · simp [getPud, lookupPud, or_and_join]
      · simp [getPud, lookupPud, isOwner128_or]
        exact Or.inr (by decide)
    · intro pa hpa herr how
      subst hpa
      have hb : (isOwner pa.auth || isOwner pa.anon) = true := by
        rcases how with h | h <;> simp [h]
      simp [herr, hb, isOwner_andNot_owner128]
    · intro pa hpa herr h1 h2
      subst hpa
      simp [herr, h1, h2]
    · intro h; subst h; exact ⟨rfl, rfl⟩
  · rfl
end Tinode.Hub

namespace Tinode.Hub
/-- C6 witness: a creation with no set block, applied to the theorem. -/
theorem topicInitNew_spec_witness :
    ∃ ts, topicInitNew 7 "grpW" 3 1 none none none true = (some ts, false) ∧
      ts.owner = 7 := by
  obtain ⟨⟨ts, heq, hown, -⟩, -⟩ := topicInitNew_spec 7 "grpW" 3 1 none none none
  exact ⟨ts, heq, hown⟩
end Tinode.Hub

namespace Tinode.Hub
/-- C6 counterexample: a set block whose default auth mode contains the
O bit (`ModeCFull`).  The claim says such a default access is rejected;
the code creates the topic anyway (no error) with the O bit stripped,
storing `accessAuth = ModeCFull &^ ModeOwner = 127`. -/
theorem topicInitNew_counterexample :
    (topicInitNew 7 "grpX" 15 1 (some ⟨false, false, false, ModeCFull, ModeNone⟩)
      none none true).2 = false ∧
    ((topicInitNew 7 "grpX" 15 1 (some ⟨false, false, false, ModeCFull, ModeNone⟩)
      none none true).1.map (fun ts => ts.accessAuth)) = some 127 := by
  decide
end Tinode.Hub

